import Mathlib

/-!
# px4remotectrl: the joystick control loop of `src/main.c`

A shallow embedding of `parse_buttons`, `mainloop` and `main`.

* C `int` is 32 bits wide, `int16_t` 16 bits and `uint64_t` 64 bits; values are
  integers with the wrap-around written out (`wrap32`, `wrap16`, `% 2 ^ 64`).
* The environment of the loop (the joystick device, the shutdown flag written by
  the signal handler, the microsecond clock) is a record of streams, `Env`.
* The calls made on the link (`rctl_*`) are recorded, in order, in a trace.
-/

namespace Px4RemoteCtrl

/-! ## Machine integers -/

/-- The constant `INT16_MIN` of `stdint.h`. -/
def INT16_MIN : Int := -32768

/-- The constant `INT16_MAX` of `stdint.h`. -/
def INT16_MAX : Int := 32767

/-- Membership in the signed 16-bit range. -/
def inInt16 (v : Int) : Prop := INT16_MIN ≤ v ∧ v ≤ INT16_MAX

instance (v : Int) : Decidable (inInt16 v) := by
  unfold inInt16; infer_instance

/-- Conversion to `int16_t` (two's complement wrap-around), as in `(int16_t)js.value`. -/
def wrap16 (v : Int) : Int := (v + 32768) % 65536 - 32768

/-- Result of an `int` operation whose mathematical value is `v` (32-bit wrap-around). -/
def wrap32 (v : Int) : Int := (v + 2147483648) % 4294967296 - 2147483648

/-- Subtraction of two `uint64_t` values. -/
def sub64 (a b : Nat) : Nat := (a + 2 ^ 64 - b % 2 ^ 64) % 2 ^ 64

/-! ## `parse_buttons` (main.c, lines 84-124) -/

def BUTTON1_UNCHANGED : Nat := 1 <<< 0
def BUTTON1_PRESSED : Nat := 1 <<< 1
def BUTTON1_RELEASED : Nat := 1 <<< 2
def BUTTON2_UNCHANGED : Nat := 1 <<< 3
def BUTTON2_PRESSED : Nat := 1 <<< 4
def BUTTON2_RELEASED : Nat := 1 <<< 5

/-- The two `static int` variables of `parse_buttons`. -/
structure ButtonEdgeState where
  old_lb : Int
  old_rb : Int
deriving DecidableEq

/-- The initial value of the statics: `old_lb = old_rb = INT16_MIN`. -/
def ButtonEdgeState.init : ButtonEdgeState := ⟨INT16_MIN, INT16_MIN⟩

/-- The function `parse_buttons(lb, rb)`: the returned bitmask and the statics after the call. -/
def parse_buttons (st : ButtonEdgeState) (lb rb : Int) : Nat × ButtonEdgeState :=
  let tmp1 := wrap32 (lb - st.old_lb)
  let tmp2 := wrap32 (rb - st.old_rb)
  let st1 : ButtonEdgeState := ⟨lb, rb⟩
  let result : Nat := 0
  let result :=
    if tmp1 > 0 then result ||| BUTTON1_PRESSED
    else if tmp1 < 0 then result ||| BUTTON1_RELEASED
    else result ||| BUTTON1_UNCHANGED
  let result :=
    if tmp2 > 0 then result ||| BUTTON2_PRESSED
    else if tmp2 < 0 then result ||| BUTTON2_RELEASED
    else result ||| BUTTON2_UNCHANGED
  (result, st1)

/-- Successive calls of `parse_buttons`, one per sample pair, threading the statics. -/
def parse_buttons_seq : ButtonEdgeState → List (Int × Int) → List Nat
  | _, [] => []
  | st, (lb, rb) :: rest =>
    (parse_buttons st lb rb).1 :: parse_buttons_seq (parse_buttons st lb rb).2 rest

/-- The mask `mask` reports for button 1 the sign classification of `cur - prev`: PRESSED when
positive, RELEASED when negative, UNCHANGED when zero. -/
def reports1 (mask : Nat) (prev cur : Int) : Prop :=
  (mask &&& BUTTON1_PRESSED ≠ 0 ↔ prev < cur) ∧
  (mask &&& BUTTON1_RELEASED ≠ 0 ↔ cur < prev) ∧
  (mask &&& BUTTON1_UNCHANGED ≠ 0 ↔ cur = prev)

/-- The mask `mask` reports for button 2 the sign classification of `cur - prev`. -/
def reports2 (mask : Nat) (prev cur : Int) : Prop :=
  (mask &&& BUTTON2_PRESSED ≠ 0 ↔ prev < cur) ∧
  (mask &&& BUTTON2_RELEASED ≠ 0 ↔ cur < prev) ∧
  (mask &&& BUTTON2_UNCHANGED ≠ 0 ↔ cur = prev)

/-! ## The joystick event and the axis identifiers -/

/-- The record `struct js_event` of `linux/joystick.h`:
`__u32 time; __s16 value; __u8 type; __u8 number`. -/
structure JsEvent where
  time : Nat
  value : Int
  type : Nat
  number : Nat
deriving DecidableEq

/-- The event buffer after `memset(&js, 0, sizeof(js))`. -/
def JsEvent.zero : JsEvent := ⟨0, 0, 0, 0⟩

/-- The constant `JS_EVENT_AXIS` of `linux/joystick.h`. -/
def JS_EVENT_AXIS : Nat := 0x02

/-- The constant `JS_EVENT_INIT` of `linux/joystick.h`. -/
def JS_EVENT_INIT : Nat := 0x80

/-- The expression `js.type & ~JS_EVENT_INIT`: the type is promoted to a non-negative `int`,
so the conjunction with the 32-bit pattern of `~0x80` clears the init bit. -/
def clear_init (ty : Nat) : Nat := ty &&& (0xFFFFFFFF - JS_EVENT_INIT)

/-- The axis identifiers `YAW`, `ROLL`, `PITCH`, `THROTTLE`, `LEFTBUT`, `RIGHTBUT`.
They are declared in the header `js_packet.h`, outside `main.c`, so their values are a
parameter of the embedding. -/
structure AxisIds where
  YAW : Nat
  ROLL : Nat
  PITCH : Nat
  THROTTLE : Nat
  LEFTBUT : Nat
  RIGHTBUT : Nat

/-- The six identifiers are pairwise different, which C demands of the labels of one `switch`. -/
def AxisIds.distinct (ids : AxisIds) : Prop :=
  [ids.YAW, ids.ROLL, ids.PITCH, ids.THROTTLE, ids.LEFTBUT, ids.RIGHTBUT].Nodup

instance (ids : AxisIds) : Decidable ids.distinct := by
  unfold AxisIds.distinct; infer_instance

/-! ## The link trace -/

/-- A call made on the link (functions of `rctl_link.h`). -/
inductive LinkCall where
  | connect_mav
  | toggle_armed
  | set_rpyt (r p y t : Int)
  | disarm
  | disconnect_mav
deriving DecidableEq

/-- Recogniser of a `rctl_set_rpyt` call. -/
def LinkCall.isSetRpyt : LinkCall → Bool
  | .set_rpyt _ _ _ _ => true
  | _ => false

/-- Modelled from the spec: `rctl_toggle_armed` and `rctl_disarm` are defined in `rctl_link.c`,
outside `main.c`. Following the spec, `toggle_armed` flips the armed flag of the link, `disarm`
clears it, and no other call changes it. -/
def armed_step (armed : Bool) : LinkCall → Bool
  | .toggle_armed => !armed
  | .disarm => false
  | _ => armed

/-- Modelled from the spec: the armed flag of a link that starts disarmed, after a sequence of
calls (see `armed_step`). -/
def armed_after (calls : List LinkCall) : Bool := calls.foldl armed_step false

/-! ## The environment of `mainloop` -/

/-- What `mainloop` observes of the outside world.
* `pending`: the events queued on the joystick descriptor when `mainloop` starts; a read pops
  the head of the queue and reports no event when the queue is empty;
* `fresh k`: the outcome of the non-blocking read of Running iteration `k` (line 142);
* `runTop k`: the flag `running` as read by the loop condition before iteration `k` (line 141);
* `runMid k`: the flag `running` as read in iteration `k` at line 183;
* `clock k`: the `k`-th reading returned by `microsSinceEpoch`. -/
structure Env where
  pending : List JsEvent
  fresh : Nat → Option JsEvent
  runTop : Nat → Bool
  runMid : Nat → Bool
  clock : Nat → Nat

/-- The value returned by the `k`-th call of `microsSinceEpoch`, a `uint64_t`. -/
def microsSinceEpoch (env : Env) (k : Nat) : Nat := env.clock k % 2 ^ 64

/-! ## `mainloop` (main.c, lines 126-188) -/

/-- The locals of `mainloop`, the statics of `parse_buttons`, and the bookkeeping of a run:
`nclk` counts the clock readings taken, `iter` the Running iterations completed, `exited` tells
that the loop condition was seen false, `trace` lists the link calls made so far and `stamps` the
values assigned to `last_time_stamp` at line 184, both in order of occurrence. -/
structure LoopState where
  r : Int
  p : Int
  y : Int
  t : Int
  lb : Int
  rb : Int
  js : JsEvent
  last_time_stamp : Nat
  read_uart_commands : Bool
  edge : ButtonEdgeState
  nclk : Nat
  iter : Nat
  exited : Bool
  trace : List LinkCall
  stamps : List Nat

/-- Line 138, `while (read(js_fd, &js, sizeof(js)) > 0);`: every successful read pops the head of
the queue into the buffer `js`. Returns the queue and the buffer at loop exit. -/
def drain : List JsEvent → JsEvent → List JsEvent × JsEvent
  | [], js => ([], js)
  | e :: q, _ => drain q e

/-- Lines 143-168: the two nested `switch` statements applied to the event now in `js`. The inner
`switch` is written as a chain of tests in the order of its labels; the labels of a C `switch`
are pairwise different (`AxisIds.distinct`), so at most one test succeeds. -/
def handle_event (ids : AxisIds) (s : LoopState) : LoopState :=
  if clear_init s.js.type = JS_EVENT_AXIS then
    if s.js.number = ids.YAW then { s with y := wrap16 s.js.value }
    else if s.js.number = ids.ROLL then { s with r := wrap16 s.js.value }
    else if s.js.number = ids.PITCH then { s with p := wrap16 s.js.value }
    else if s.js.number = ids.THROTTLE then { s with t := wrap16 s.js.value }
    else if s.js.number = ids.LEFTBUT then { s with lb := wrap16 s.js.value }
    else if s.js.number = ids.RIGHTBUT then { s with rb := wrap16 s.js.value }
    else s
  else s

/-- Lines 142-169: one non-blocking read and, when it delivers an event, its handling. -/
def read_step (ids : AxisIds) (env : Env) (s : LoopState) : LoopState :=
  match env.fresh s.iter with
  | some e => handle_event ids { s with js := e }
  | none => s

/-- Lines 170-180: the edge detector, the arm toggle, the mode flag, and the empty UART branch. -/
def button_step (uart_fd : Int) (s : LoopState) : LoopState :=
  let bstate := (parse_buttons s.edge s.lb s.rb).1
  let s1 := { s with edge := (parse_buttons s.edge s.lb s.rb).2 }
  let s2 :=
    if bstate &&& BUTTON1_PRESSED ≠ 0 then { s1 with trace := s1.trace ++ [LinkCall.toggle_armed] }
    else s1
  let s3 :=
    if bstate &&& BUTTON2_PRESSED ≠ 0 then { s2 with read_uart_commands := !s2.read_uart_commands }
    else s2
  if s3.read_uart_commands && decide (uart_fd > 0) then s3 else s3

/-- Lines 183-186: the rate-limited dispatch. The clock is read only when `running` is seen true,
and a second time when the command is sent. -/
def send_step (env : Env) (s : LoopState) : LoopState :=
  if env.runMid s.iter then
    if sub64 (microsSinceEpoch env s.nclk) s.last_time_stamp > 40000 then
      { s with
        last_time_stamp := microsSinceEpoch env (s.nclk + 1)
        nclk := s.nclk + 2
        trace := s.trace ++ [LinkCall.set_rpyt s.r s.p s.y s.t]
        stamps := s.stamps ++ [microsSinceEpoch env (s.nclk + 1)] }
    else { s with nclk := s.nclk + 1 }
  else s

/-- One pass through the body of `while (running)`, lines 142-186. -/
def loop_body (ids : AxisIds) (uart_fd : Int) (env : Env) (s : LoopState) : LoopState :=
  let s1 := send_step env (button_step uart_fd (read_step ids env s))
  { s1 with iter := s.iter + 1 }

/-- The loop `while (running) ...` of lines 141-187, run for at most `fuel` evaluations of its
condition. -/
def run_loop (ids : AxisIds) (uart_fd : Int) (env : Env) : Nat → LoopState → LoopState
  | 0, s => s
  | fuel + 1, s =>
    if env.runTop s.iter then run_loop ids uart_fd env fuel (loop_body ids uart_fd env s)
    else { s with exited := true }

/-- Lines 128-135: the state of `mainloop` before the drain loop. The first clock reading is taken
by the initialiser of `last_time_stamp`. -/
def init_state (env : Env) (edge : ButtonEdgeState) (trace : List LinkCall) : LoopState :=
  { r := 0, p := 0, y := 0, t := INT16_MIN, lb := INT16_MIN, rb := INT16_MIN,
    js := JsEvent.zero, last_time_stamp := microsSinceEpoch env 0,
    read_uart_commands := false, edge := edge, nclk := 1, iter := 0, exited := false,
    trace := trace, stamps := [] }

/-- Lines 128-138: the state in which the Running loop is entered. -/
def drained_state (env : Env) (edge : ButtonEdgeState) (trace : List LinkCall) : LoopState :=
  { init_state env edge trace with js := (drain env.pending JsEvent.zero).2 }

/-- The function `mainloop(js_fd, uart_fd, link)`, for at most `fuel` evaluations of the loop
condition, entered with the statics `edge` and the link trace `trace`. -/
def mainloop (ids : AxisIds) (uart_fd : Int) (env : Env) (edge : ButtonEdgeState)
    (trace : List LinkCall) (fuel : Nat) : LoopState :=
  run_loop ids uart_fd env fuel (drained_state env edge trace)

/-! ## `main` (main.c, lines 237-299) -/

/-- The function `open_uart`: whatever `open` returned, the result is `-1`. -/
def open_uart (_openResult : Int) : Int := -1

/-- Lines 280-289 of `main`: `open_uart`, `rctl_connect_mav`, `mainloop`, `rctl_disarm`,
`rctl_disconnect_mav` (`edvs_start` and `edvs_stop` take no link and make no link call). The
result is the trace of link calls, or `none` when the loop has not exited within `fuel`
evaluations of its condition. -/
def main (ids : AxisIds) (uartOpen : Int) (env : Env) (fuel : Nat) : Option (List LinkCall) :=
  let uart_fd := open_uart uartOpen
  let s := mainloop ids uart_fd env ButtonEdgeState.init [LinkCall.connect_mav] fuel
  if s.exited then some (s.trace ++ [LinkCall.disarm] ++ [LinkCall.disconnect_mav])
  else none

/-! ## Vocabulary of the statements -/

/-- The six axis variables of `mainloop`, in the order yaw, roll, pitch, throttle, left button,
right button. -/
def axes (s : LoopState) : Int × Int × Int × Int × Int × Int :=
  (s.y, s.r, s.p, s.t, s.lb, s.rb)

/-- The link calls made between state `s` and a later state `s1`. -/
def new_calls (s s1 : LoopState) : List LinkCall := s1.trace.drop s.trace.length

/-- The mask that `parse_buttons` returns in the iteration entered in state `s` (line 170). -/
def detector_report (ids : AxisIds) (env : Env) (s : LoopState) : Nat :=
  (parse_buttons (read_step ids env s).edge (read_step ids env s).lb (read_step ids env s).rb).1

/-- An axis event (init bit set or not) for the left button. -/
def is_leftbut_event (ids : AxisIds) (e : JsEvent) : Prop :=
  clear_init e.type = JS_EVENT_AXIS ∧ e.number = ids.LEFTBUT

instance (ids : AxisIds) (e : JsEvent) : Decidable (is_leftbut_event ids e) := by
  unfold is_leftbut_event; infer_instance

/-- An axis event (init bit set or not) for the right button. -/
def is_rightbut_event (ids : AxisIds) (e : JsEvent) : Prop :=
  clear_init e.type = JS_EVENT_AXIS ∧ e.number = ids.RIGHTBUT

instance (ids : AxisIds) (e : JsEvent) : Decidable (is_rightbut_event ids e) := by
  unfold is_rightbut_event; infer_instance

/-- The state `s` with the event buffer cleared; two states with the same image differ at most
in the buffer `js`. -/
def forget_js (s : LoopState) : LoopState := { s with js := JsEvent.zero }

/-- Two read outcomes are the same, or both are right-button axis events that differ at most in
the value they carry. -/
def rb_variant (ids : AxisIds) (o1 o2 : Option JsEvent) : Prop :=
  o1 = o2 ∨
  ∃ e1 e2, o1 = some e1 ∧ o2 = some e2 ∧ is_rightbut_event ids e1 ∧
    e2.time = e1.time ∧ e2.type = e1.type ∧ e2.number = e1.number

/-- The part of the loop state that link calls can depend on: everything except the right
button value, the right-button static, the mode flag and the event buffer. -/
def link_view (s : LoopState) :
    (Int × Int × Int × Int × Int) × Int × (Nat × Nat × List Nat) × Nat × Bool × List LinkCall :=
  ((s.y, s.r, s.p, s.t, s.lb), s.edge.old_lb, (s.last_time_stamp, s.nclk, s.stamps), s.iter,
    s.exited, s.trace)

/-! ## Sample inputs -/

/-- An assignment of six different identifiers, for the examples. -/
def demo_ids : AxisIds :=
  { YAW := 3, ROLL := 0, PITCH := 1, THROTTLE := 2, LEFTBUT := 4, RIGHTBUT := 5 }

/-- A clock that advances by 40 ms per reading. -/
def demo_clock (k : Nat) : Nat := min (40000 * k) (2 ^ 63)

/-- Sample environment: two stale events are pending; the Running iterations 0, 1 and 2 read
the axis events (ROLL, 100), (THROTTLE, 500) and (LEFTBUT, 0); the shutdown flag is seen set by
the sixth evaluation of the loop condition. -/
def demo_env : Env :=
  { pending := [⟨0, 7, 0x82, 4⟩, ⟨0, 9, 0x81, 1⟩]
    fresh := fun k =>
      if k = 0 then some ⟨1, 100, 0x02, 0⟩
      else if k = 1 then some ⟨2, 500, 0x02, 2⟩
      else if k = 2 then some ⟨3, 0, 0x02, 4⟩
      else none
    runTop := fun k => decide (k < 5)
    runMid := fun _ => true
    clock := demo_clock }

/-- The sample environment with one more event, read by iteration 3: a right-button axis event
carrying the value `v`. -/
def demo_env_rb (v : Int) : Env :=
  { demo_env with
    fresh := fun k => if k = 3 then some ⟨4, v, 0x02, 5⟩ else demo_env.fresh k }

/-! ## Facts about the machine integers -/

theorem wrap32_sub_of_inInt16 {a b : Int} (ha : inInt16 a) (hb : inInt16 b) :
    wrap32 (a - b) = a - b := by
  unfold inInt16 INT16_MIN INT16_MAX at ha hb
  unfold wrap32
  omega

theorem wrap16_of_inInt16 {v : Int} (hv : inInt16 v) : wrap16 v = v := by
  unfold inInt16 INT16_MIN INT16_MAX at hv
  unfold wrap16
  omega

theorem inInt16_wrap16 (v : Int) : inInt16 (wrap16 v) := by
  unfold inInt16 INT16_MIN INT16_MAX wrap16
  omega

theorem sub64_of_le {a b : Nat} (hba : b ≤ a) (ha : a < 2 ^ 64) : sub64 a b = a - b := by
  unfold sub64
  have hb : b % 2 ^ 64 = b := Nat.mod_eq_of_lt (lt_of_le_of_lt hba ha)
  rw [hb]
  have h2 : a + 2 ^ 64 - b = (a - b) + 2 ^ 64 := by omega
  rw [h2, Nat.add_mod_right]
  exact Nat.mod_eq_of_lt (lt_of_le_of_lt (Nat.sub_le a b) ha)

/-! ## The edge detector -/

/-- The bit reported for a button whose sample moved by `d`. -/
theorem parse_buttons_fst (st : ButtonEdgeState) (lb rb : Int)
    (h1 : inInt16 st.old_lb) (h2 : inInt16 st.old_rb) (h3 : inInt16 lb) (h4 : inInt16 rb) :
    (parse_buttons st lb rb).1 =
      (if st.old_lb < lb then BUTTON1_PRESSED
        else if lb < st.old_lb then BUTTON1_RELEASED else BUTTON1_UNCHANGED) |||
      (if st.old_rb < rb then BUTTON2_PRESSED
        else if rb < st.old_rb then BUTTON2_RELEASED else BUTTON2_UNCHANGED) := by
  unfold parse_buttons
  simp only [wrap32_sub_of_inInt16 h3 h1, wrap32_sub_of_inInt16 h4 h2, gt_iff_lt, sub_pos,
    sub_neg, Nat.zero_or]
  split_ifs <;> rfl

theorem parse_buttons_snd (st : ButtonEdgeState) (lb rb : Int) :
    (parse_buttons st lb rb).2 = ⟨lb, rb⟩ := rfl

/-- Claim C1. For previous and current samples in the signed 16-bit range, the `int` subtractions
of `parse_buttons` do not overflow, the returned mask has exactly one of the three bits of
button 1 and exactly one of the three bits of button 2 and no other bit, and the bit of each
button is fixed by the sign of current minus previous: positive gives PRESSED, negative gives
RELEASED, zero gives UNCHANGED. -/
theorem parse_buttons_sign_classification (old_lb old_rb lb rb : Int)
    (h1 : inInt16 old_lb) (h2 : inInt16 old_rb) (h3 : inInt16 lb) (h4 : inInt16 rb) :
    wrap32 (lb - old_lb) = lb - old_lb ∧ wrap32 (rb - old_rb) = rb - old_rb ∧
    ([BUTTON1_UNCHANGED, BUTTON1_PRESSED, BUTTON1_RELEASED].filter
      (fun b => decide ((parse_buttons ⟨old_lb, old_rb⟩ lb rb).1 &&& b ≠ 0))).length = 1 ∧
    ([BUTTON2_UNCHANGED, BUTTON2_PRESSED, BUTTON2_RELEASED].filter
      (fun b => decide ((parse_buttons ⟨old_lb, old_rb⟩ lb rb).1 &&& b ≠ 0))).length = 1 ∧
    (parse_buttons ⟨old_lb, old_rb⟩ lb rb).1 &&&
      (BUTTON1_UNCHANGED ||| BUTTON1_PRESSED ||| BUTTON1_RELEASED |||
        BUTTON2_UNCHANGED ||| BUTTON2_PRESSED ||| BUTTON2_RELEASED) =
      (parse_buttons ⟨old_lb, old_rb⟩ lb rb).1 ∧
    ((parse_buttons ⟨old_lb, old_rb⟩ lb rb).1 &&& BUTTON1_PRESSED ≠ 0 ↔ 0 < lb - old_lb) ∧
    ((parse_buttons ⟨old_lb, old_rb⟩ lb rb).1 &&& BUTTON1_RELEASED ≠ 0 ↔ lb - old_lb < 0) ∧
    ((parse_buttons ⟨old_lb, old_rb⟩ lb rb).1 &&& BUTTON1_UNCHANGED ≠ 0 ↔ lb - old_lb = 0) ∧
    ((parse_buttons ⟨old_lb, old_rb⟩ lb rb).1 &&& BUTTON2_PRESSED ≠ 0 ↔ 0 < rb - old_rb) ∧
    ((parse_buttons ⟨old_lb, old_rb⟩ lb rb).1 &&& BUTTON2_RELEASED ≠ 0 ↔ rb - old_rb < 0) ∧
    ((parse_buttons ⟨old_lb, old_rb⟩ lb rb).1 &&& BUTTON2_UNCHANGED ≠ 0 ↔ rb - old_rb = 0) := by
  refine ⟨wrap32_sub_of_inInt16 h3 h1, wrap32_sub_of_inInt16 h4 h2, ?_⟩
  rw [parse_buttons_fst ⟨old_lb, old_rb⟩ lb rb h1 h2 h3 h4]
  simp only [sub_pos, sub_neg, sub_eq_zero]
  split_ifs
  all_goals
    refine ⟨by decide, by decide, by decide, ?_, ?_, ?_, ?_, ?_, ?_⟩
  all_goals
    constructor <;> intro h <;>
      first
        | decide
        | omega
        | exact absurd h (by decide)

theorem parse_buttons_reports (st : ButtonEdgeState) (lb rb : Int)
    (h1 : inInt16 st.old_lb) (h2 : inInt16 st.old_rb) (h3 : inInt16 lb) (h4 : inInt16 rb) :
    reports1 (parse_buttons st lb rb).1 st.old_lb lb ∧
    reports2 (parse_buttons st lb rb).1 st.old_rb rb := by
  rw [parse_buttons_fst st lb rb h1 h2 h3 h4]
  unfold reports1 reports2
  split_ifs
  all_goals
    refine ⟨⟨?_, ?_, ?_⟩, ?_, ?_, ?_⟩
  all_goals
    constructor <;> intro h <;>
      first
        | decide
        | omega
        | exact absurd h (by decide)

theorem parse_buttons_mask1 (st : ButtonEdgeState) (lb rb : Int)
    (h1 : inInt16 st.old_lb) (h2 : inInt16 st.old_rb) (h3 : inInt16 lb) (h4 : inInt16 rb) :
    (parse_buttons st lb rb).1 &&& (BUTTON1_UNCHANGED ||| BUTTON1_PRESSED ||| BUTTON1_RELEASED) =
      if st.old_lb < lb then BUTTON1_PRESSED
      else if lb < st.old_lb then BUTTON1_RELEASED else BUTTON1_UNCHANGED := by
  rw [parse_buttons_fst st lb rb h1 h2 h3 h4]
  split_ifs <;> rfl

theorem parse_buttons_mask2 (st : ButtonEdgeState) (lb rb : Int)
    (h1 : inInt16 st.old_lb) (h2 : inInt16 st.old_rb) (h3 : inInt16 lb) (h4 : inInt16 rb) :
    (parse_buttons st lb rb).1 &&& (BUTTON2_UNCHANGED ||| BUTTON2_PRESSED ||| BUTTON2_RELEASED) =
      if st.old_rb < rb then BUTTON2_PRESSED
      else if rb < st.old_rb then BUTTON2_RELEASED else BUTTON2_UNCHANGED := by
  rw [parse_buttons_fst st lb rb h1 h2 h3 h4]
  split_ifs <;> rfl

theorem parse_buttons_seq_length (samples : List (Int × Int)) :
    ∀ st, (parse_buttons_seq st samples).length = samples.length := by
  induction samples with
  | nil => intro st; rfl
  | cons x rest ih =>
    intro st
    obtain ⟨lb, rb⟩ := x
    simp only [parse_buttons_seq, List.length_cons, ih]

/-- Call `k` of a run of `parse_buttons` compares sample `k` with sample `k - 1`, the statics
standing in for sample `-1`. -/
theorem parse_buttons_seq_reports (samples : List (Int × Int)) :
    ∀ (st : ButtonEdgeState) (k : Nat), inInt16 st.old_lb → inInt16 st.old_rb →
      (∀ x ∈ samples, inInt16 x.1 ∧ inInt16 x.2) → k < samples.length →
      reports1 ((parse_buttons_seq st samples).getD k 0)
        ((st.old_lb :: samples.map Prod.fst).getD k 0) ((samples.map Prod.fst).getD k 0) ∧
      reports2 ((parse_buttons_seq st samples).getD k 0)
        ((st.old_rb :: samples.map Prod.snd).getD k 0) ((samples.map Prod.snd).getD k 0) := by
  induction samples with
  | nil => intro st k _ _ _ hk; exact absurd hk (Nat.not_lt_zero k)
  | cons x rest ih =>
    intro st k h1 h2 hall hk
    obtain ⟨lb, rb⟩ := x
    have hx : inInt16 lb ∧ inInt16 rb := hall (lb, rb) (List.mem_cons_self _ _)
    cases k with
    | zero =>
      simp only [parse_buttons_seq, List.map_cons, List.getD_cons_zero]
      exact parse_buttons_reports st lb rb h1 h2 hx.1 hx.2
    | succ j =>
      simp only [parse_buttons_seq, List.map_cons, List.getD_cons_succ]
      have hrest : ∀ y ∈ rest, inInt16 y.1 ∧ inInt16 y.2 :=
        fun y hy => hall y (List.mem_cons_of_mem _ hy)
      have hj : j < rest.length := Nat.lt_of_succ_lt_succ hk
      exact ih (parse_buttons st lb rb).2 j hx.1 hx.2 hrest hj

/-- Claim C4. Feeding in-range samples one pair per call to `parse_buttons`, starting from the
self-initialised statics (`INT16_MIN`), call `k` reports for each axis the sign classification of
sample `k` minus sample `k - 1` (sample `-1` being `INT16_MIN`): PRESSED exactly at a strict
increase, RELEASED exactly at a strict decrease, UNCHANGED otherwise; the two axes do not
interact. On either axis the samples MIN, 0, 0, 1, 1, 0 give UNCHANGED, PRESSED, UNCHANGED,
PRESSED, UNCHANGED, RELEASED whatever in-range samples the other axis carries. -/
theorem parse_buttons_seq_edges (samples : List (Int × Int))
    (hall : ∀ x ∈ samples, inInt16 x.1 ∧ inInt16 x.2) :
    (parse_buttons_seq ButtonEdgeState.init samples).length = samples.length ∧
    (∀ k, k < samples.length →
      reports1 ((parse_buttons_seq ButtonEdgeState.init samples).getD k 0)
        ((INT16_MIN :: samples.map Prod.fst).getD k 0) ((samples.map Prod.fst).getD k 0) ∧
      reports2 ((parse_buttons_seq ButtonEdgeState.init samples).getD k 0)
        ((INT16_MIN :: samples.map Prod.snd).getD k 0) ((samples.map Prod.snd).getD k 0)) ∧
    (samples.map Prod.fst = [INT16_MIN, 0, 0, 1, 1, 0] →
      (parse_buttons_seq ButtonEdgeState.init samples).map
          (fun m => m &&& (BUTTON1_UNCHANGED ||| BUTTON1_PRESSED ||| BUTTON1_RELEASED)) =
        [BUTTON1_UNCHANGED, BUTTON1_PRESSED, BUTTON1_UNCHANGED, BUTTON1_PRESSED,
          BUTTON1_UNCHANGED, BUTTON1_RELEASED]) ∧
    (samples.map Prod.snd = [INT16_MIN, 0, 0, 1, 1, 0] →
      (parse_buttons_seq ButtonEdgeState.init samples).map
          (fun m => m &&& (BUTTON2_UNCHANGED ||| BUTTON2_PRESSED ||| BUTTON2_RELEASED)) =
        [BUTTON2_UNCHANGED, BUTTON2_PRESSED, BUTTON2_UNCHANGED, BUTTON2_PRESSED,
          BUTTON2_UNCHANGED, BUTTON2_RELEASED]) := by
  refine ⟨parse_buttons_seq_length samples _, ?_, ?_, ?_⟩
  · intro k hk
    exact parse_buttons_seq_reports samples ButtonEdgeState.init k (by decide) (by decide) hall hk
  · intro hfst
    simp only [List.map_eq_cons_iff, List.map_eq_nil_iff] at hfst
    obtain ⟨x1, l1, rfl, e1, x2, l2, rfl, e2, x3, l3, rfl, e3, x4, l4, rfl, e4,
      x5, l5, rfl, e5, x6, l6, rfl, e6, rfl⟩ := hfst
    obtain ⟨a1, o1⟩ := x1
    obtain ⟨a2, o2⟩ := x2
    obtain ⟨a3, o3⟩ := x3
    obtain ⟨a4, o4⟩ := x4
    obtain ⟨a5, o5⟩ := x5
    obtain ⟨a6, o6⟩ := x6
    simp only at e1 e2 e3 e4 e5 e6
    subst e1 e2 e3 e4 e5 e6
    simp only [List.forall_mem_cons, List.not_mem_nil, false_imp_iff, implies_true,
      and_true] at hall
    obtain ⟨⟨_, r1⟩, ⟨_, r2⟩, ⟨_, r3⟩, ⟨_, r4⟩, ⟨_, r5⟩, ⟨_, r6⟩⟩ := hall
    have im : inInt16 INT16_MIN := by decide
    have i0 : inInt16 0 := by decide
    have i1 : inInt16 1 := by decide
    simp only [parse_buttons_seq, List.map_cons, List.map_nil, parse_buttons_snd]
    rw [parse_buttons_mask1 _ _ _ im im im r1, parse_buttons_mask1 _ _ _ im r1 i0 r2,
      parse_buttons_mask1 _ _ _ i0 r2 i0 r3, parse_buttons_mask1 _ _ _ i0 r3 i1 r4,
      parse_buttons_mask1 _ _ _ i1 r4 i1 r5, parse_buttons_mask1 _ _ _ i1 r5 i0 r6]
    dsimp only [ButtonEdgeState.init]
    decide
  · intro hsnd
    simp only [List.map_eq_cons_iff, List.map_eq_nil_iff] at hsnd
    obtain ⟨x1, l1, rfl, e1, x2, l2, rfl, e2, x3, l3, rfl, e3, x4, l4, rfl, e4,
      x5, l5, rfl, e5, x6, l6, rfl, e6, rfl⟩ := hsnd
    obtain ⟨o1, a1⟩ := x1
    obtain ⟨o2, a2⟩ := x2
    obtain ⟨o3, a3⟩ := x3
    obtain ⟨o4, a4⟩ := x4
    obtain ⟨o5, a5⟩ := x5
    obtain ⟨o6, a6⟩ := x6
    simp only at e1 e2 e3 e4 e5 e6
    subst e1 e2 e3 e4 e5 e6
    simp only [List.forall_mem_cons, List.not_mem_nil, false_imp_iff, implies_true,
      and_true] at hall
    obtain ⟨⟨r1, _⟩, ⟨r2, _⟩, ⟨r3, _⟩, ⟨r4, _⟩, ⟨r5, _⟩, ⟨r6, _⟩⟩ := hall
    have im : inInt16 INT16_MIN := by decide
    have i0 : inInt16 0 := by decide
    have i1 : inInt16 1 := by decide
    simp only [parse_buttons_seq, List.map_cons, List.map_nil, parse_buttons_snd]
    rw [parse_buttons_mask2 _ _ _ im im r1 im, parse_buttons_mask2 _ _ _ r1 im r2 i0,
      parse_buttons_mask2 _ _ _ r2 i0 r3 i0, parse_buttons_mask2 _ _ _ r3 i0 r4 i1,
      parse_buttons_mask2 _ _ _ r4 i1 r5 i1, parse_buttons_mask2 _ _ _ r5 i1 r6 i0]
    dsimp only [ButtonEdgeState.init]
    decide

/-- Instance of `parse_buttons_seq_edges`: the sample sequence of the specification on the left
axis, with a right axis that is pressed once and released once meanwhile. -/
theorem parse_buttons_seq_edges_witness :
    (parse_buttons_seq ButtonEdgeState.init
        [(INT16_MIN, INT16_MIN), (0, INT16_MIN), (0, 7), (1, 7), (1, 7), (0, 3)]).map
        (fun m => m &&& (BUTTON1_UNCHANGED ||| BUTTON1_PRESSED ||| BUTTON1_RELEASED)) =
      [BUTTON1_UNCHANGED, BUTTON1_PRESSED, BUTTON1_UNCHANGED, BUTTON1_PRESSED,
        BUTTON1_UNCHANGED, BUTTON1_RELEASED] :=
  (parse_buttons_seq_edges
    [(INT16_MIN, INT16_MIN), (0, INT16_MIN), (0, 7), (1, 7), (1, 7), (0, 3)]
    (by decide)).2.2.1 (by decide)

/-- Instance of `parse_buttons_sign_classification`: the left button goes from the sentinel to 0
(pressed) while the right button goes from 0 to -5 (released). -/
theorem parse_buttons_sign_classification_witness :
    (parse_buttons ⟨INT16_MIN, 0⟩ 0 (-5)).1 = BUTTON1_PRESSED ||| BUTTON2_RELEASED ∧
    ((parse_buttons ⟨INT16_MIN, 0⟩ 0 (-5)).1 &&& BUTTON1_PRESSED ≠ 0 ↔
      0 < (0 : Int) - INT16_MIN) :=
  ⟨by decide, (parse_buttons_sign_classification INT16_MIN 0 0 (-5)
    (by decide) (by decide) (by decide) (by decide)).2.2.2.2.2.1⟩

/-! ## The three stages of one iteration -/

theorem handle_event_frame (ids : AxisIds) (s : LoopState) :
    (handle_event ids s).js = s.js ∧
    (handle_event ids s).last_time_stamp = s.last_time_stamp ∧
    (handle_event ids s).read_uart_commands = s.read_uart_commands ∧
    (handle_event ids s).edge = s.edge ∧
    (handle_event ids s).nclk = s.nclk ∧
    (handle_event ids s).iter = s.iter ∧
    (handle_event ids s).exited = s.exited ∧
    (handle_event ids s).trace = s.trace ∧
    (handle_event ids s).stamps = s.stamps := by
  unfold handle_event
  split_ifs <;> simp

theorem read_step_frame (ids : AxisIds) (env : Env) (s : LoopState) :
    (read_step ids env s).last_time_stamp = s.last_time_stamp ∧
    (read_step ids env s).read_uart_commands = s.read_uart_commands ∧
    (read_step ids env s).edge = s.edge ∧
    (read_step ids env s).nclk = s.nclk ∧
    (read_step ids env s).iter = s.iter ∧
    (read_step ids env s).exited = s.exited ∧
    (read_step ids env s).trace = s.trace ∧
    (read_step ids env s).stamps = s.stamps := by
  unfold read_step
  cases env.fresh s.iter with
  | none => simp
  | some e =>
    have h := handle_event_frame ids { s with js := e }
    simp only at h ⊢
    exact h.2

theorem button_step_frame (uart_fd : Int) (s : LoopState) :
    (button_step uart_fd s).r = s.r ∧
    (button_step uart_fd s).p = s.p ∧
    (button_step uart_fd s).y = s.y ∧
    (button_step uart_fd s).t = s.t ∧
    (button_step uart_fd s).lb = s.lb ∧
    (button_step uart_fd s).rb = s.rb ∧
    (button_step uart_fd s).js = s.js ∧
    (button_step uart_fd s).last_time_stamp = s.last_time_stamp ∧
    (button_step uart_fd s).nclk = s.nclk ∧
    (button_step uart_fd s).iter = s.iter ∧
    (button_step uart_fd s).exited = s.exited ∧
    (button_step uart_fd s).stamps = s.stamps ∧
    (button_step uart_fd s).edge = ⟨s.lb, s.rb⟩ := by
  unfold button_step
  simp only [ite_self, parse_buttons_snd]
  split_ifs <;> simp

theorem button_step_trace (uart_fd : Int) (s : LoopState) :
    (button_step uart_fd s).trace =
      s.trace ++ (if (parse_buttons s.edge s.lb s.rb).1 &&& BUTTON1_PRESSED ≠ 0
        then [LinkCall.toggle_armed] else []) := by
  unfold button_step
  simp only [ite_self]
  split_ifs <;> simp

theorem button_step_flag (uart_fd : Int) (s : LoopState) :
    (button_step uart_fd s).read_uart_commands =
      (if (parse_buttons s.edge s.lb s.rb).1 &&& BUTTON2_PRESSED ≠ 0
        then !s.read_uart_commands else s.read_uart_commands) := by
  unfold button_step
  simp only [ite_self]
  split_ifs <;> simp

theorem send_step_frame (env : Env) (s : LoopState) :
    (send_step env s).r = s.r ∧
    (send_step env s).p = s.p ∧
    (send_step env s).y = s.y ∧
    (send_step env s).t = s.t ∧
    (send_step env s).lb = s.lb ∧
    (send_step env s).rb = s.rb ∧
    (send_step env s).js = s.js ∧
    (send_step env s).read_uart_commands = s.read_uart_commands ∧
    (send_step env s).edge = s.edge ∧
    (send_step env s).iter = s.iter ∧
    (send_step env s).exited = s.exited := by
  unfold send_step
  split_ifs <;> simp

theorem parse_buttons_pressed1 (st : ButtonEdgeState) (lb rb : Int) :
    (parse_buttons st lb rb).1 &&& BUTTON1_PRESSED ≠ 0 ↔ 0 < wrap32 (lb - st.old_lb) := by
  unfold parse_buttons
  simp only [gt_iff_lt]
  split_ifs <;> constructor <;> intro h <;>
    first
      | assumption
      | decide
      | exact absurd h (by decide)
      | exact absurd h (by assumption)

theorem parse_buttons_pressed2 (st : ButtonEdgeState) (lb rb : Int) :
    (parse_buttons st lb rb).1 &&& BUTTON2_PRESSED ≠ 0 ↔ 0 < wrap32 (rb - st.old_rb) := by
  unfold parse_buttons
  simp only [gt_iff_lt]
  split_ifs <;> constructor <;> intro h <;>
    first
      | assumption
      | decide
      | exact absurd h (by decide)
      | exact absurd h (by assumption)

/-- Whatever the samples, a mask with the RELEASED or UNCHANGED bit of a button does not have
the PRESSED bit of that button. -/
theorem parse_buttons_exclusive (st : ButtonEdgeState) (lb rb : Int) :
    (((parse_buttons st lb rb).1 &&& BUTTON1_RELEASED ≠ 0 ∨
        (parse_buttons st lb rb).1 &&& BUTTON1_UNCHANGED ≠ 0) →
      ¬ ((parse_buttons st lb rb).1 &&& BUTTON1_PRESSED ≠ 0)) ∧
    (((parse_buttons st lb rb).1 &&& BUTTON2_RELEASED ≠ 0 ∨
        (parse_buttons st lb rb).1 &&& BUTTON2_UNCHANGED ≠ 0) →
      ¬ ((parse_buttons st lb rb).1 &&& BUTTON2_PRESSED ≠ 0)) := by
  unfold parse_buttons
  simp only
  split_ifs <;> decide

theorem handle_event_axes (ids : AxisIds) (s : LoopState) :
    axes (handle_event ids s) =
      if clear_init s.js.type = JS_EVENT_AXIS then
        if s.js.number = ids.YAW then (wrap16 s.js.value, s.r, s.p, s.t, s.lb, s.rb)
        else if s.js.number = ids.ROLL then (s.y, wrap16 s.js.value, s.p, s.t, s.lb, s.rb)
        else if s.js.number = ids.PITCH then (s.y, s.r, wrap16 s.js.value, s.t, s.lb, s.rb)
        else if s.js.number = ids.THROTTLE then (s.y, s.r, s.p, wrap16 s.js.value, s.lb, s.rb)
        else if s.js.number = ids.LEFTBUT then (s.y, s.r, s.p, s.t, wrap16 s.js.value, s.rb)
        else if s.js.number = ids.RIGHTBUT then (s.y, s.r, s.p, s.t, s.lb, wrap16 s.js.value)
        else axes s
      else axes s := by
  unfold handle_event axes
  split_ifs <;> rfl

theorem read_step_axes (ids : AxisIds) (env : Env) (s : LoopState) :
    axes (read_step ids env s) =
      match env.fresh s.iter with
      | some e =>
        if clear_init e.type = JS_EVENT_AXIS then
          if e.number = ids.YAW then (wrap16 e.value, s.r, s.p, s.t, s.lb, s.rb)
          else if e.number = ids.ROLL then (s.y, wrap16 e.value, s.p, s.t, s.lb, s.rb)
          else if e.number = ids.PITCH then (s.y, s.r, wrap16 e.value, s.t, s.lb, s.rb)
          else if e.number = ids.THROTTLE then (s.y, s.r, s.p, wrap16 e.value, s.lb, s.rb)
          else if e.number = ids.LEFTBUT then (s.y, s.r, s.p, s.t, wrap16 e.value, s.rb)
          else if e.number = ids.RIGHTBUT then (s.y, s.r, s.p, s.t, s.lb, wrap16 e.value)
          else axes s
        else axes s
      | none => axes s := by
  unfold read_step
  cases env.fresh s.iter with
  | none => rfl
  | some e => exact handle_event_axes ids { s with js := e }

theorem loop_body_axes (ids : AxisIds) (uart_fd : Int) (env : Env) (s : LoopState) :
    axes (loop_body ids uart_fd env s) = axes (read_step ids env s) := by
  obtain ⟨b1, b2, b3, b4, b5, b6, -⟩ := button_step_frame uart_fd (read_step ids env s)
  obtain ⟨c1, c2, c3, c4, c5, c6, -⟩ := send_step_frame env (button_step uart_fd (read_step ids env s))
  simp only [loop_body, axes, c1, c2, c3, c4, c5, c6, b1, b2, b3, b4, b5, b6]

/-- Claim C8. In an iteration that reads an axis event (type with the init bit cleared equal to
`JS_EVENT_AXIS`) whose identifier is one of YAW, ROLL, PITCH, THROTTLE, LEFTBUT, RIGHTBUT, exactly
the matching variable among y, r, p, t, lb, rb takes the event value and the other five keep
theirs; with any other identifier, with an event of another type, or without an event, all six
are unchanged. -/
theorem loop_body_axis_update (ids : AxisIds) (hd : ids.distinct) (uart_fd : Int) (env : Env)
    (s : LoopState) :
    (∀ e, env.fresh s.iter = some e → clear_init e.type = JS_EVENT_AXIS → inInt16 e.value →
      (e.number = ids.YAW →
        axes (loop_body ids uart_fd env s) = (e.value, s.r, s.p, s.t, s.lb, s.rb)) ∧
      (e.number = ids.ROLL →
        axes (loop_body ids uart_fd env s) = (s.y, e.value, s.p, s.t, s.lb, s.rb)) ∧
      (e.number = ids.PITCH →
        axes (loop_body ids uart_fd env s) = (s.y, s.r, e.value, s.t, s.lb, s.rb)) ∧
      (e.number = ids.THROTTLE →
        axes (loop_body ids uart_fd env s) = (s.y, s.r, s.p, e.value, s.lb, s.rb)) ∧
      (e.number = ids.LEFTBUT →
        axes (loop_body ids uart_fd env s) = (s.y, s.r, s.p, s.t, e.value, s.rb)) ∧
      (e.number = ids.RIGHTBUT →
        axes (loop_body ids uart_fd env s) = (s.y, s.r, s.p, s.t, s.lb, e.value)) ∧
      (e.number ∉ [ids.YAW, ids.ROLL, ids.PITCH, ids.THROTTLE, ids.LEFTBUT, ids.RIGHTBUT] →
        axes (loop_body ids uart_fd env s) = axes s)) ∧
    (∀ e, env.fresh s.iter = some e → clear_init e.type ≠ JS_EVENT_AXIS →
      axes (loop_body ids uart_fd env s) = axes s) ∧
    (env.fresh s.iter = none → axes (loop_body ids uart_fd env s) = axes s) := by
  rw [loop_body_axes, read_step_axes]
  unfold AxisIds.distinct at hd
  simp only [List.nodup_cons, List.mem_cons, List.mem_singleton, List.not_mem_nil, not_or,
    List.nodup_nil, and_true, not_false_eq_true] at hd
  obtain ⟨⟨h12, h13, h14, h15, h16⟩, ⟨h23, h24, h25, h26⟩, ⟨h34, h35, h36⟩, ⟨h45, h46⟩, h56⟩ := hd
  refine ⟨?_, ?_, ?_⟩
  · intro e he hty hv
    rw [he]
    simp only [hty, if_true, wrap16_of_inInt16 hv]
    refine ⟨?_, ?_, ?_, ?_, ?_, ?_, ?_⟩
    · intro hn; simp [hn]
    · intro hn; simp [hn, Ne.symm h12]
    · intro hn; simp [hn, Ne.symm h13, Ne.symm h23]
    · intro hn; simp [hn, Ne.symm h14, Ne.symm h24, Ne.symm h34]
    · intro hn; simp [hn, Ne.symm h15, Ne.symm h25, Ne.symm h35, Ne.symm h45]
    · intro hn; simp [hn, Ne.symm h16, Ne.symm h26, Ne.symm h36, Ne.symm h46, Ne.symm h56]
    · intro hn
      simp only [List.mem_cons, List.mem_singleton, List.not_mem_nil, not_or, or_false] at hn
      obtain ⟨n1, n2, n3, n4, n5, n6⟩ := hn
      simp [n1, n2, n3, n4, n5, n6]
  · intro e he hty
    rw [he]
    simp [hty]
  · intro he
    rw [he]

theorem send_step_trace (env : Env) (s : LoopState) :
    (send_step env s).trace =
      s.trace ++ (if env.runMid s.iter = true ∧
          40000 < sub64 (microsSinceEpoch env s.nclk) s.last_time_stamp
        then [LinkCall.set_rpyt s.r s.p s.y s.t] else []) := by
  unfold send_step
  by_cases h1 : env.runMid s.iter = true
  · by_cases h2 : 40000 < sub64 (microsSinceEpoch env s.nclk) s.last_time_stamp
    · simp [h1, h2]
    · simp [h1, h2]
  · simp [h1]

theorem send_step_clock (env : Env) (s : LoopState) :
    ((send_step env s).last_time_stamp, (send_step env s).nclk, (send_step env s).stamps) =
      if env.runMid s.iter = true then
        if 40000 < sub64 (microsSinceEpoch env s.nclk) s.last_time_stamp then
          (microsSinceEpoch env (s.nclk + 1), s.nclk + 2,
            s.stamps ++ [microsSinceEpoch env (s.nclk + 1)])
        else (s.last_time_stamp, s.nclk + 1, s.stamps)
      else (s.last_time_stamp, s.nclk, s.stamps) := by
  unfold send_step
  by_cases h1 : env.runMid s.iter = true
  · by_cases h2 : 40000 < sub64 (microsSinceEpoch env s.nclk) s.last_time_stamp
    · simp [h1, h2]
    · simp [h1, h2]
  · simp [h1]

/-- The link calls of one iteration: at most one `toggle_armed`, then at most one `set_rpyt`. -/
theorem loop_body_trace (ids : AxisIds) (uart_fd : Int) (env : Env) (s : LoopState) :
    (loop_body ids uart_fd env s).trace =
      s.trace ++
        ((if detector_report ids env s &&& BUTTON1_PRESSED ≠ 0
            then [LinkCall.toggle_armed] else []) ++
          (if env.runMid s.iter = true ∧
              40000 < sub64 (microsSinceEpoch env s.nclk) s.last_time_stamp
            then [LinkCall.set_rpyt (read_step ids env s).r (read_step ids env s).p
              (read_step ids env s).y (read_step ids env s).t]
            else [])) := by
  obtain ⟨a1, a2, a3, a4, a5, a6, a7, a8⟩ := read_step_frame ids env s
  obtain ⟨b1, b2, b3, b4, b5, b6, b7, b8, b9, b10, b11, b12, b13⟩ :=
    button_step_frame uart_fd (read_step ids env s)
  simp only [loop_body, send_step_trace, button_step_trace, detector_report, b1, b2, b3, b4,
    b8, b9, b10, a1, a4, a5, a7, List.append_assoc]

theorem loop_body_new_calls (ids : AxisIds) (uart_fd : Int) (env : Env) (s : LoopState) :
    new_calls s (loop_body ids uart_fd env s) =
      (if detector_report ids env s &&& BUTTON1_PRESSED ≠ 0
          then [LinkCall.toggle_armed] else []) ++
        (if env.runMid s.iter = true ∧
            40000 < sub64 (microsSinceEpoch env s.nclk) s.last_time_stamp
          then [LinkCall.set_rpyt (read_step ids env s).r (read_step ids env s).p
            (read_step ids env s).y (read_step ids env s).t]
          else []) := by
  unfold new_calls
  rw [loop_body_trace, List.drop_left]

theorem loop_body_flag (ids : AxisIds) (uart_fd : Int) (env : Env) (s : LoopState) :
    (loop_body ids uart_fd env s).read_uart_commands =
      (if detector_report ids env s &&& BUTTON2_PRESSED ≠ 0
        then !s.read_uart_commands else s.read_uart_commands) := by
  obtain ⟨a1, a2, a3, a4, a5, a6, a7, a8⟩ := read_step_frame ids env s
  obtain ⟨c1, c2, c3, c4, c5, c6, c7, c8, -⟩ :=
    send_step_frame env (button_step uart_fd (read_step ids env s))
  simp only [loop_body, c8, button_step_flag, detector_report, a2]

/-- Claim C5. In one iteration `toggle_armed` is called exactly once when the edge detector
reports the left button PRESSED and not at all otherwise, and `read_uart_commands` is flipped
exactly once when it reports the right button PRESSED and keeps its value otherwise. The two
actions are decided separately, so both happen when both buttons are PRESSED, and a RELEASED or
UNCHANGED report on a button causes no action for that button. -/
theorem loop_body_button_actions (ids : AxisIds) (uart_fd : Int) (env : Env) (s : LoopState) :
    (loop_body ids uart_fd env s).trace = s.trace ++ new_calls s (loop_body ids uart_fd env s) ∧
    (new_calls s (loop_body ids uart_fd env s)).count LinkCall.toggle_armed =
      (if detector_report ids env s &&& BUTTON1_PRESSED ≠ 0 then 1 else 0) ∧
    (loop_body ids uart_fd env s).read_uart_commands =
      (if detector_report ids env s &&& BUTTON2_PRESSED ≠ 0
        then !s.read_uart_commands else s.read_uart_commands) ∧
    ((detector_report ids env s &&& BUTTON1_RELEASED ≠ 0 ∨
        detector_report ids env s &&& BUTTON1_UNCHANGED ≠ 0) →
      LinkCall.toggle_armed ∉ new_calls s (loop_body ids uart_fd env s)) ∧
    ((detector_report ids env s &&& BUTTON2_RELEASED ≠ 0 ∨
        detector_report ids env s &&& BUTTON2_UNCHANGED ≠ 0) →
      (loop_body ids uart_fd env s).read_uart_commands = s.read_uart_commands) := by
  have hx := parse_buttons_exclusive (read_step ids env s).edge (read_step ids env s).lb
    (read_step ids env s).rb
  have hcount : (new_calls s (loop_body ids uart_fd env s)).count LinkCall.toggle_armed =
      (if detector_report ids env s &&& BUTTON1_PRESSED ≠ 0 then 1 else 0) := by
    rw [loop_body_new_calls]
    split_ifs <;> simp
  refine ⟨?_, hcount, loop_body_flag ids uart_fd env s, ?_, ?_⟩
  · rw [loop_body_new_calls, loop_body_trace]
  · intro h
    have hn := hx.1 h
    rw [← List.count_eq_zero, hcount]
    exact if_neg hn
  · intro h
    have hn := hx.2 h
    rw [loop_body_flag]
    exact if_neg hn

/-! ## Runs of the loop -/

theorem loop_body_iter (ids : AxisIds) (uart_fd : Int) (env : Env) (s : LoopState) :
    (loop_body ids uart_fd env s).iter = s.iter + 1 := rfl

theorem loop_body_exited (ids : AxisIds) (uart_fd : Int) (env : Env) (s : LoopState) :
    (loop_body ids uart_fd env s).exited = s.exited := by
  obtain ⟨a1, a2, a3, a4, a5, a6, a7, a8⟩ := read_step_frame ids env s
  obtain ⟨b1, b2, b3, b4, b5, b6, b7, b8, b9, b10, b11, b12, b13⟩ :=
    button_step_frame uart_fd (read_step ids env s)
  obtain ⟨c1, c2, c3, c4, c5, c6, c7, c8, c9, c10, c11⟩ :=
    send_step_frame env (button_step uart_fd (read_step ids env s))
  simp only [loop_body, c11, b11, a6]

/-- A property of the loop state that holds on entry, is kept by the loop body whenever the
loop condition holds, and does not depend on the `exited` mark, holds of every run. -/
theorem run_loop_invariant (ids : AxisIds) (uart_fd : Int) (env : Env) (P : LoopState → Prop)
    (hbody : ∀ s, P s → env.runTop s.iter = true → P (loop_body ids uart_fd env s))
    (hexit : ∀ s, P s → P { s with exited := true }) :
    ∀ (fuel : Nat) (s : LoopState), P s → P (run_loop ids uart_fd env fuel s) := by
  intro fuel
  induction fuel with
  | zero => intro s hs; exact hs
  | succ n ih =>
    intro s hs
    unfold run_loop
    by_cases h : env.runTop s.iter = true
    · rw [if_pos h]
      exact ih _ (hbody s hs h)
    · rw [if_neg h]
      exact hexit s hs

/-- Once the flag is seen false by the loop condition the loop exits. -/
theorem run_loop_exits (ids : AxisIds) (uart_fd : Int) (env : Env) (k : Nat)
    (hk : env.runTop k = false) :
    ∀ (fuel : Nat) (s : LoopState), s.iter ≤ k → k < s.iter + fuel →
      (run_loop ids uart_fd env fuel s).exited = true := by
  intro fuel
  induction fuel with
  | zero => intro s h1 h2; omega
  | succ n ih =>
    intro s h1 h2
    unfold run_loop
    by_cases h : env.runTop s.iter = true
    · rw [if_pos h]
      have hne : s.iter ≠ k := by
        intro he
        rw [he, hk] at h
        exact Bool.noConfusion h
      apply ih
      · rw [loop_body_iter]; omega
      · rw [loop_body_iter]; omega
    · rw [if_neg h]

/-- Every call that a run of the loop adds to the trace is `toggle_armed` or `set_rpyt`. -/
theorem run_loop_trace_shape (ids : AxisIds) (uart_fd : Int) (env : Env) (tr0 : List LinkCall)
    (fuel : Nat) (s : LoopState) (hs : s.trace = tr0) :
    ∃ calls, (run_loop ids uart_fd env fuel s).trace = tr0 ++ calls ∧
      ∀ c ∈ calls, c = LinkCall.toggle_armed ∨ c.isSetRpyt = true := by
  refine run_loop_invariant ids uart_fd env
    (fun s => ∃ calls, s.trace = tr0 ++ calls ∧
      ∀ c ∈ calls, c = LinkCall.toggle_armed ∨ c.isSetRpyt = true) ?_ ?_ fuel s ?_
  · rintro s ⟨calls, hc, hall⟩ -
    refine ⟨calls ++ new_calls s (loop_body ids uart_fd env s), ?_, ?_⟩
    · rw [← List.append_assoc, ← hc, loop_body_new_calls, loop_body_trace]
    · intro c hc2
      rcases List.mem_append.mp hc2 with h | h
      · exact hall c h
      · rw [loop_body_new_calls] at h
        rcases List.mem_append.mp h with h | h
        · split_ifs at h
          · left; simpa using h
          · simp at h
        · split_ifs at h
          · right
            have hc3 := List.mem_singleton.mp h
            rw [hc3]; rfl
          · simp at h
  · rintro s ⟨calls, hc, hall⟩
    exact ⟨calls, hc, hall⟩
  · exact ⟨[], by simp [hs], by simp⟩

/-- Claim C3. When `main` returns a trace (the control loop has exited), the trace is
`connect_mav`, then calls that are each `toggle_armed` or `set_rpyt` (the calls of `mainloop`),
then `disarm`, then `disconnect_mav`: each of `disarm` and `disconnect_mav` occurs exactly once,
`disarm` right before `disconnect_mav`, and nothing follows them. The loop does exit, and `main`
does return a trace, as soon as the loop condition sees the shutdown flag set. -/
theorem main_disarm_before_disconnect (ids : AxisIds) (uartOpen : Int) (env : Env) (fuel : Nat) :
    (∀ tr, main ids uartOpen env fuel = some tr →
      ∃ calls, tr = [LinkCall.connect_mav] ++ calls ++
          [LinkCall.disarm, LinkCall.disconnect_mav] ∧
        (∀ c ∈ calls, c = LinkCall.toggle_armed ∨ c.isSetRpyt = true) ∧
        tr.count LinkCall.disarm = 1 ∧ tr.count LinkCall.disconnect_mav = 1) ∧
    (∀ k, env.runTop k = false → ∃ tr, main ids uartOpen env (k + 1) = some tr) := by
  constructor
  · intro tr htr
    unfold main at htr
    simp only at htr
    split_ifs at htr with hex
    obtain ⟨calls, hc, hall⟩ := run_loop_trace_shape ids (open_uart uartOpen) env
      [LinkCall.connect_mav] fuel
      (drained_state env ButtonEdgeState.init [LinkCall.connect_mav]) rfl
    have htr2 := Option.some.inj htr
    unfold mainloop at htr2
    rw [hc] at htr2
    refine ⟨calls, ?_, hall, ?_, ?_⟩
    · rw [← htr2]; simp
    · rw [← htr2]
      have h0 : calls.count LinkCall.disarm = 0 := by
        rw [List.count_eq_zero]
        intro hmem
        rcases hall _ hmem with h | h
        · exact LinkCall.noConfusion h
        · exact Bool.noConfusion h
      simp [h0]
    · rw [← htr2]
      have h0 : calls.count LinkCall.disconnect_mav = 0 := by
        rw [List.count_eq_zero]
        intro hmem
        rcases hall _ hmem with h | h
        · exact LinkCall.noConfusion h
        · exact Bool.noConfusion h
      simp [h0]
  · intro k hk
    have hex := run_loop_exits ids (open_uart uartOpen) env k hk (k + 1)
      (drained_state env ButtonEdgeState.init [LinkCall.connect_mav]) (Nat.zero_le k)
      (by show k < 0 + (k + 1); omega)
    unfold main mainloop
    simp only [hex, if_true]
    exact ⟨_, rfl⟩

/-! ## The drain loop -/

theorem drain_queue_empty (q : List JsEvent) : ∀ js, (drain q js).1 = [] := by
  induction q with
  | nil => intro js; rfl
  | cons e q ih => intro js; exact ih e

theorem forget_js_read_step (ids : AxisIds) (env : Env) (s : LoopState) :
    forget_js (read_step ids env (forget_js s)) = forget_js (read_step ids env s) := by
  unfold read_step
  simp only [forget_js]
  cases env.fresh s.iter with
  | none => rfl
  | some e => rfl

theorem forget_js_button_step (uart_fd : Int) (s : LoopState) :
    button_step uart_fd (forget_js s) = forget_js (button_step uart_fd s) := by
  unfold button_step forget_js
  simp only [ite_self]
  split_ifs <;> rfl

theorem forget_js_send_step (env : Env) (s : LoopState) :
    send_step env (forget_js s) = forget_js (send_step env s) := by
  unfold send_step forget_js
  simp only
  split_ifs <;> rfl

theorem forget_js_idem (s : LoopState) : forget_js (forget_js s) = forget_js s := rfl

theorem button_step_congr_forget (uart_fd : Int) (s1 s2 : LoopState)
    (h : forget_js s1 = forget_js s2) :
    forget_js (button_step uart_fd s1) = forget_js (button_step uart_fd s2) := by
  rw [← forget_js_button_step, ← forget_js_button_step, h]

theorem send_step_congr_forget (env : Env) (s1 s2 : LoopState)
    (h : forget_js s1 = forget_js s2) :
    forget_js (send_step env s1) = forget_js (send_step env s2) := by
  rw [← forget_js_send_step, ← forget_js_send_step, h]

theorem forget_js_loop_body (ids : AxisIds) (uart_fd : Int) (env : Env) (s : LoopState) :
    forget_js (loop_body ids uart_fd env (forget_js s)) =
      forget_js (loop_body ids uart_fd env s) := by
  have h := send_step_congr_forget env _ _
    (button_step_congr_forget uart_fd _ _ (forget_js_read_step ids env s))
  have hi : (forget_js s).iter = s.iter := rfl
  unfold loop_body
  simp only [hi]
  exact congrArg (fun x : LoopState => { x with iter := s.iter + 1 }) h

/-- The content of the event buffer on entry to the loop has no influence on a run, except on
the buffer itself. -/
theorem forget_js_run_loop (ids : AxisIds) (uart_fd : Int) (env : Env) :
    ∀ (fuel : Nat) (s1 s2 : LoopState), forget_js s1 = forget_js s2 →
      forget_js (run_loop ids uart_fd env fuel s1) =
        forget_js (run_loop ids uart_fd env fuel s2) := by
  intro fuel
  induction fuel with
  | zero => intro s1 s2 h; exact h
  | succ n ih =>
    intro s1 s2 h
    have hi : (forget_js s1).iter = (forget_js s2).iter := congrArg LoopState.iter h
    have hi2 : s1.iter = s2.iter := hi
    unfold run_loop
    by_cases hr : env.runTop s1.iter = true
    · have hr2 : env.runTop s2.iter = true := hi2 ▸ hr
      rw [if_pos hr, if_pos hr2]
      apply ih
      rw [← forget_js_loop_body ids uart_fd env s1, ← forget_js_loop_body ids uart_fd env s2, h]
    · have hr2 : ¬ env.runTop s2.iter = true := hi2 ▸ hr
      rw [if_neg hr, if_neg hr2]
      exact congrArg (fun x : LoopState => { x with exited := true }) h

theorem run_loop_pending (ids : AxisIds) (uart_fd : Int) (env : Env) (q : List JsEvent) :
    ∀ (fuel : Nat) (s : LoopState),
      run_loop ids uart_fd { env with pending := q } fuel s = run_loop ids uart_fd env fuel s := by
  intro fuel
  induction fuel with
  | zero => intro s; rfl
  | succ n ih =>
    intro s
    unfold run_loop
    have hb : loop_body ids uart_fd { env with pending := q } s = loop_body ids uart_fd env s :=
      rfl
    rw [hb, ih]

/-- Claim C7. Whatever finite queue of events is pending when `mainloop` starts, the drain loop
ends with the queue empty, and the Running loop is entered with roll, pitch and yaw at 0, with
throttle and both buttons at `INT16_MIN`, with the statics of `parse_buttons` untouched and
with no link call made. The queued events stay without effect afterwards too: a run with pending
events and the run without any agree at every point, except on the content of the event buffer
(which is overwritten before it is next looked at). -/
theorem drain_discards_pending (ids : AxisIds) (uart_fd : Int) (env : Env)
    (edge : ButtonEdgeState) (trace : List LinkCall) :
    (drain env.pending JsEvent.zero).1 = [] ∧
    axes (drained_state env edge trace) = (0, 0, 0, INT16_MIN, INT16_MIN, INT16_MIN) ∧
    (drained_state env edge trace).edge = edge ∧
    (drained_state env edge trace).trace = trace ∧
    (drained_state env edge trace).read_uart_commands = false ∧
    (drained_state env edge trace).iter = 0 ∧
    (∀ fuel, forget_js (mainloop ids uart_fd env edge trace fuel) =
      forget_js (mainloop ids uart_fd { env with pending := [] } edge trace fuel)) := by
  refine ⟨drain_queue_empty _ _, rfl, rfl, rfl, rfl, rfl, ?_⟩
  intro fuel
  unfold mainloop
  rw [run_loop_pending ids uart_fd env []]
  exact forget_js_run_loop ids uart_fd env fuel (drained_state env edge trace)
    (drained_state { env with pending := [] } edge trace) rfl

/-! ## The edge detector inside the loop -/

theorem distinct_unfold (ids : AxisIds) (hd : ids.distinct) :
    (ids.YAW ≠ ids.ROLL ∧ ids.YAW ≠ ids.PITCH ∧ ids.YAW ≠ ids.THROTTLE ∧
      ids.YAW ≠ ids.LEFTBUT ∧ ids.YAW ≠ ids.RIGHTBUT) ∧
    (ids.ROLL ≠ ids.PITCH ∧ ids.ROLL ≠ ids.THROTTLE ∧ ids.ROLL ≠ ids.LEFTBUT ∧
      ids.ROLL ≠ ids.RIGHTBUT) ∧
    (ids.PITCH ≠ ids.THROTTLE ∧ ids.PITCH ≠ ids.LEFTBUT ∧ ids.PITCH ≠ ids.RIGHTBUT) ∧
    (ids.THROTTLE ≠ ids.LEFTBUT ∧ ids.THROTTLE ≠ ids.RIGHTBUT) ∧
    ids.LEFTBUT ≠ ids.RIGHTBUT := by
  unfold AxisIds.distinct at hd
  simpa only [List.nodup_cons, List.mem_cons, List.mem_singleton, List.not_mem_nil, not_or,
    List.nodup_nil, and_true, not_false_eq_true, or_false, ne_eq] using hd

theorem read_step_lb (ids : AxisIds) (hd : ids.distinct) (env : Env) (s : LoopState) :
    (read_step ids env s).lb =
      match env.fresh s.iter with
      | some e => if is_leftbut_event ids e then wrap16 e.value else s.lb
      | none => s.lb := by
  obtain ⟨⟨h12, h13, h14, h15, h16⟩, ⟨h23, h24, h25, h26⟩, ⟨h34, h35, h36⟩, ⟨h45, h46⟩, h56⟩ :=
    distinct_unfold ids hd
  have h := congrArg (fun x => x.2.2.2.2.1) (read_step_axes ids env s)
  simp only [axes] at h
  rw [h]
  cases env.fresh s.iter with
  | none => rfl
  | some e =>
    simp only [is_leftbut_event]
    by_cases hty : clear_init e.type = JS_EVENT_AXIS
    · simp only [hty, if_true, true_and]
      by_cases hn : e.number = ids.LEFTBUT
      · simp [hn, Ne.symm h15, Ne.symm h25, Ne.symm h35, Ne.symm h45]
      · simp only [hn, if_false]
        split_ifs <;> rfl
    · simp [hty]

theorem read_step_rb (ids : AxisIds) (hd : ids.distinct) (env : Env) (s : LoopState) :
    (read_step ids env s).rb =
      match env.fresh s.iter with
      | some e => if is_rightbut_event ids e then wrap16 e.value else s.rb
      | none => s.rb := by
  obtain ⟨⟨h12, h13, h14, h15, h16⟩, ⟨h23, h24, h25, h26⟩, ⟨h34, h35, h36⟩, ⟨h45, h46⟩, h56⟩ :=
    distinct_unfold ids hd
  have h := congrArg (fun x => x.2.2.2.2.2) (read_step_axes ids env s)
  simp only [axes] at h
  rw [h]
  cases env.fresh s.iter with
  | none => rfl
  | some e =>
    simp only [is_rightbut_event]
    by_cases hty : clear_init e.type = JS_EVENT_AXIS
    · simp only [hty, if_true, true_and]
      by_cases hn : e.number = ids.RIGHTBUT
      · simp [hn, Ne.symm h16, Ne.symm h26, Ne.symm h36, Ne.symm h46, Ne.symm h56]
      · simp only [hn, if_false]
        split_ifs <;> rfl
    · simp [hty]

theorem read_step_inInt16 (ids : AxisIds) (env : Env) (s : LoopState)
    (hl : inInt16 s.lb) (hr : inInt16 s.rb) :
    inInt16 (read_step ids env s).lb ∧ inInt16 (read_step ids env s).rb := by
  have h5 := congrArg (fun x => x.2.2.2.2.1) (read_step_axes ids env s)
  have h6 := congrArg (fun x => x.2.2.2.2.2) (read_step_axes ids env s)
  simp only [axes] at h5 h6
  rw [h5, h6]
  cases env.fresh s.iter with
  | none => exact ⟨hl, hr⟩
  | some e =>
    simp only
    have hw := inInt16_wrap16 e.value
    split_ifs <;> exact ⟨by first | exact hl | exact hw, by first | exact hr | exact hw⟩

theorem loop_body_edge (ids : AxisIds) (uart_fd : Int) (env : Env) (s : LoopState) :
    (loop_body ids uart_fd env s).edge =
      ⟨(loop_body ids uart_fd env s).lb, (loop_body ids uart_fd env s).rb⟩ := by
  obtain ⟨b1, b2, b3, b4, b5, b6, b7, b8, b9, b10, b11, b12, b13⟩ :=
    button_step_frame uart_fd (read_step ids env s)
  obtain ⟨c1, c2, c3, c4, c5, c6, c7, c8, c9, c10, c11⟩ :=
    send_step_frame env (button_step uart_fd (read_step ids env s))
  simp only [loop_body, c9, c5, c6, b13, b5, b6]

theorem loop_body_lb_rb (ids : AxisIds) (uart_fd : Int) (env : Env) (s : LoopState) :
    (loop_body ids uart_fd env s).lb = (read_step ids env s).lb ∧
    (loop_body ids uart_fd env s).rb = (read_step ids env s).rb := by
  have h := loop_body_axes ids uart_fd env s
  simp only [axes, Prod.mk.injEq] at h
  exact ⟨h.2.2.2.2.1, h.2.2.2.2.2⟩

/-- In a state where the statics hold the current button values, the detector reports the left
button PRESSED exactly when the iteration reads a left-button event with a larger value. -/
theorem detector_report_pressed1 (ids : AxisIds) (hd : ids.distinct) (env : Env)
    (hv : ∀ k e, env.fresh k = some e → inInt16 e.value) (s : LoopState)
    (he : s.edge = ⟨s.lb, s.rb⟩) (hl : inInt16 s.lb) (hr : inInt16 s.rb) :
    detector_report ids env s &&& BUTTON1_PRESSED ≠ 0 ↔
      ∃ e, env.fresh s.iter = some e ∧ is_leftbut_event ids e ∧ s.lb < e.value := by
  obtain ⟨a1, a2, a3, a4, a5, a6, a7, a8⟩ := read_step_frame ids env s
  obtain ⟨m1, m2⟩ := read_step_inInt16 ids env s hl hr
  have hrep := (parse_buttons_reports (read_step ids env s).edge (read_step ids env s).lb
    (read_step ids env s).rb (by rw [a3, he]; exact hl) (by rw [a3, he]; exact hr) m1 m2).1.1
  unfold detector_report
  rw [hrep, a3, he, read_step_lb ids hd]
  cases hf : env.fresh s.iter with
  | none => simp
  | some e =>
    have hve := hv _ _ hf
    simp only [Option.some.injEq, exists_eq_left']
    by_cases hlb : is_leftbut_event ids e
    · simp [hlb, wrap16_of_inInt16 hve]
    · simp [hlb]

theorem toggle_mem_new_calls (ids : AxisIds) (uart_fd : Int) (env : Env) (s : LoopState) :
    LinkCall.toggle_armed ∈ new_calls s (loop_body ids uart_fd env s) ↔
      detector_report ids env s &&& BUTTON1_PRESSED ≠ 0 := by
  rw [loop_body_new_calls]
  by_cases h1 : detector_report ids env s &&& BUTTON1_PRESSED ≠ 0
  · simp [h1]
  · by_cases h2 : env.runMid s.iter = true ∧
        40000 < sub64 (microsSinceEpoch env s.nclk) s.last_time_stamp
    · simp only [h1, h2, if_false, if_true, and_self, List.nil_append, List.mem_singleton,
        iff_false]
      exact fun h => LinkCall.noConfusion h
    · simp [h1, h2]

theorem loop_body_trace_new_calls (ids : AxisIds) (uart_fd : Int) (env : Env) (s : LoopState) :
    (loop_body ids uart_fd env s).trace = s.trace ++ new_calls s (loop_body ids uart_fd env s) := by
  rw [loop_body_new_calls, loop_body_trace]

/-- The invariant behind claim C10, for any run entered with the statics equal to the button
variables. -/
theorem run_loop_edge_invariant (ids : AxisIds) (hd : ids.distinct) (uart_fd : Int) (env : Env)
    (hv : ∀ k e, env.fresh k = some e → inInt16 e.value) (fuel : Nat) (s0 : LoopState)
    (h0 : s0.edge = ⟨s0.lb, s0.rb⟩ ∧ inInt16 s0.lb ∧ inInt16 s0.rb ∧
      ((∀ j < s0.iter, ∀ e, env.fresh j = some e → ¬ is_leftbut_event ids e) →
        s0.lb = INT16_MIN ∧ LinkCall.toggle_armed ∉ s0.trace)) :
    (run_loop ids uart_fd env fuel s0).edge =
        ⟨(run_loop ids uart_fd env fuel s0).lb, (run_loop ids uart_fd env fuel s0).rb⟩ ∧
      inInt16 (run_loop ids uart_fd env fuel s0).lb ∧
      inInt16 (run_loop ids uart_fd env fuel s0).rb ∧
      ((∀ j < (run_loop ids uart_fd env fuel s0).iter, ∀ e, env.fresh j = some e →
          ¬ is_leftbut_event ids e) →
        (run_loop ids uart_fd env fuel s0).lb = INT16_MIN ∧
          LinkCall.toggle_armed ∉ (run_loop ids uart_fd env fuel s0).trace) := by
  refine run_loop_invariant ids uart_fd env
    (fun s => s.edge = ⟨s.lb, s.rb⟩ ∧ inInt16 s.lb ∧ inInt16 s.rb ∧
      ((∀ j < s.iter, ∀ e, env.fresh j = some e → ¬ is_leftbut_event ids e) →
        s.lb = INT16_MIN ∧ LinkCall.toggle_armed ∉ s.trace)) ?_ ?_ fuel s0 h0
  · rintro s ⟨he, hl, hr, hfirst⟩ -
    obtain ⟨m1, m2⟩ := read_step_inInt16 ids env s hl hr
    obtain ⟨e1, e2⟩ := loop_body_lb_rb ids uart_fd env s
    refine ⟨loop_body_edge ids uart_fd env s, by rw [e1]; exact m1, by rw [e2]; exact m2, ?_⟩
    intro hno
    rw [loop_body_iter] at hno
    obtain ⟨hmin, hnt⟩ := hfirst (fun j hj => hno j (Nat.lt_succ_of_lt hj))
    have hcur := hno s.iter (Nat.lt_succ_self _)
    constructor
    · rw [e1, read_step_lb ids hd]
      cases hf : env.fresh s.iter with
      | none => exact hmin
      | some e =>
        simp only [if_neg (hcur e hf)]
        exact hmin
    · rw [loop_body_trace_new_calls, List.mem_append, not_or]
      refine ⟨hnt, ?_⟩
      rw [toggle_mem_new_calls, detector_report_pressed1 ids hd env hv s he hl hr]
      rintro ⟨e, hf, hlb, -⟩
      exact hcur e hf hlb
  · rintro s h
    exact h

/-- Claim C10. In a run started by `main`, the statics of `parse_buttons` are `INT16_MIN` on
entry, and at the start of every iteration they equal the values that `lb` and `rb` had at the
end of the previous one. So `toggle_armed` is called in an iteration exactly when that iteration
reads a left-button axis event whose value exceeds the previous left-button value: not while no
left-button event has arrived, not in an iteration without event or with an event for another
axis, and certainly at the first left-button event with a value above `INT16_MIN`. -/
theorem mainloop_edge_invariant (ids : AxisIds) (hd : ids.distinct) (uart_fd : Int) (env : Env)
    (hv : ∀ k e, env.fresh k = some e → inInt16 e.value) (fuel : Nat) :
    ∀ s, s = mainloop ids uart_fd env ButtonEdgeState.init [LinkCall.connect_mav] fuel →
      (mainloop ids uart_fd env ButtonEdgeState.init [LinkCall.connect_mav] 0).edge =
        ⟨INT16_MIN, INT16_MIN⟩ ∧
      s.edge = ⟨s.lb, s.rb⟩ ∧
      (LinkCall.toggle_armed ∈ new_calls s (loop_body ids uart_fd env s) ↔
        ∃ e, env.fresh s.iter = some e ∧ is_leftbut_event ids e ∧ s.lb < e.value) ∧
      ((∀ j < s.iter, ∀ e, env.fresh j = some e → ¬ is_leftbut_event ids e) →
        s.lb = INT16_MIN ∧ LinkCall.toggle_armed ∉ s.trace ∧
        (∀ e, env.fresh s.iter = some e → is_leftbut_event ids e → INT16_MIN < e.value →
          LinkCall.toggle_armed ∈ new_calls s (loop_body ids uart_fd env s))) := by
  intro s hs
  have hinv := run_loop_edge_invariant ids hd uart_fd env hv fuel
    (drained_state env ButtonEdgeState.init [LinkCall.connect_mav])
    ⟨rfl, (by decide : inInt16 INT16_MIN), (by decide : inInt16 INT16_MIN),
      fun _ => ⟨rfl, (by decide : LinkCall.toggle_armed ∉ [LinkCall.connect_mav])⟩⟩
  have hs2 : run_loop ids uart_fd env fuel
      (drained_state env ButtonEdgeState.init [LinkCall.connect_mav]) = s := hs.symm
  rw [hs2] at hinv
  obtain ⟨he, hl, hr, hfirst⟩ := hinv
  have hiff := (toggle_mem_new_calls ids uart_fd env s).trans
    (detector_report_pressed1 ids hd env hv s he hl hr)
  refine ⟨rfl, he, hiff, ?_⟩
  intro hno
  obtain ⟨hmin, hnt⟩ := hfirst hno
  refine ⟨hmin, hnt, ?_⟩
  intro e hf hlb hgt
  rw [hiff]
  exact ⟨e, hf, hlb, by rw [hmin]; exact hgt⟩

/-! ## The rate limit -/

theorem loop_body_clock (ids : AxisIds) (uart_fd : Int) (env : Env) (s : LoopState) :
    ((loop_body ids uart_fd env s).last_time_stamp, (loop_body ids uart_fd env s).nclk,
        (loop_body ids uart_fd env s).stamps) =
      if env.runMid s.iter = true then
        if 40000 < sub64 (microsSinceEpoch env s.nclk) s.last_time_stamp then
          (microsSinceEpoch env (s.nclk + 1), s.nclk + 2,
            s.stamps ++ [microsSinceEpoch env (s.nclk + 1)])
        else (s.last_time_stamp, s.nclk + 1, s.stamps)
      else (s.last_time_stamp, s.nclk, s.stamps) := by
  obtain ⟨a1, a2, a3, a4, a5, a6, a7, a8⟩ := read_step_frame ids env s
  obtain ⟨b1, b2, b3, b4, b5, b6, b7, b8, b9, b10, b11, b12, b13⟩ :=
    button_step_frame uart_fd (read_step ids env s)
  have h := send_step_clock env (button_step uart_fd (read_step ids env s))
  rw [b8, b9, b10, b12, a1, a4, a5, a8] at h
  exact h

theorem new_calls_sends (ids : AxisIds) (uart_fd : Int) (env : Env) (s : LoopState) :
    (new_calls s (loop_body ids uart_fd env s)).filter LinkCall.isSetRpyt =
      if env.runMid s.iter = true ∧
          40000 < sub64 (microsSinceEpoch env s.nclk) s.last_time_stamp
        then [LinkCall.set_rpyt (read_step ids env s).r (read_step ids env s).p
          (read_step ids env s).y (read_step ids env s).t]
        else [] := by
  rw [loop_body_new_calls]
  split_ifs <;> simp [LinkCall.isSetRpyt]

theorem microsSinceEpoch_eq (env : Env) (hb : ∀ k, env.clock k < 2 ^ 64) (k : Nat) :
    microsSinceEpoch env k = env.clock k := Nat.mod_eq_of_lt (hb k)

/-- The invariant behind claim C2. -/
theorem run_loop_rate_invariant (ids : AxisIds) (uart_fd : Int) (env : Env)
    (hmono : Monotone env.clock) (hb : ∀ k, env.clock k < 2 ^ 64) (t0 : Nat) (fuel : Nat)
    (s0 : LoopState)
    (h0 : s0.last_time_stamp ≤ env.clock s0.nclk ∧
      (∀ x ∈ t0 :: s0.stamps, x ≤ s0.last_time_stamp) ∧
      List.Chain' (fun a b => a + 40000 < b) (t0 :: s0.stamps) ∧
      (s0.trace.filter LinkCall.isSetRpyt).length = s0.stamps.length) :
    (run_loop ids uart_fd env fuel s0).last_time_stamp ≤
        env.clock (run_loop ids uart_fd env fuel s0).nclk ∧
      (∀ x ∈ t0 :: (run_loop ids uart_fd env fuel s0).stamps,
        x ≤ (run_loop ids uart_fd env fuel s0).last_time_stamp) ∧
      List.Chain' (fun a b => a + 40000 < b) (t0 :: (run_loop ids uart_fd env fuel s0).stamps) ∧
      ((run_loop ids uart_fd env fuel s0).trace.filter LinkCall.isSetRpyt).length =
        (run_loop ids uart_fd env fuel s0).stamps.length := by
  refine run_loop_invariant ids uart_fd env
    (fun s => s.last_time_stamp ≤ env.clock s.nclk ∧
      (∀ x ∈ t0 :: s.stamps, x ≤ s.last_time_stamp) ∧
      List.Chain' (fun a b => a + 40000 < b) (t0 :: s.stamps) ∧
      (s.trace.filter LinkCall.isSetRpyt).length = s.stamps.length) ?_ ?_ fuel s0 h0
  · rintro s ⟨hle, hall, hch, hlen⟩ -
    have hclk := loop_body_clock ids uart_fd env s
    have htr := loop_body_trace_new_calls ids uart_fd env s
    have hsend := new_calls_sends ids uart_fd env s
    rw [microsSinceEpoch_eq env hb, microsSinceEpoch_eq env hb, sub64_of_le hle (hb _)] at hclk
    rw [microsSinceEpoch_eq env hb, sub64_of_le hle (hb _)] at hsend
    by_cases h1 : env.runMid s.iter = true
    · by_cases h2 : 40000 < env.clock s.nclk - s.last_time_stamp
      · simp only [h1, h2, if_true, and_self, Prod.mk.injEq] at hclk hsend
        obtain ⟨c1, c2, c3⟩ := hclk
        have hm1 : env.clock s.nclk ≤ env.clock (s.nclk + 1) := hmono (Nat.le_succ _)
        have hm2 : env.clock (s.nclk + 1) ≤ env.clock (s.nclk + 2) := hmono (Nat.le_succ _)
        rw [c1, c2, c3, htr, List.filter_append, List.length_append, hsend, hlen]
        refine ⟨hm2, ?_, ?_, by simp⟩
        · intro x hx
          rw [← List.cons_append, List.mem_append, List.mem_singleton] at hx
          rcases hx with hx | hx
          · have := hall x hx
            omega
          · omega
        · rw [← List.cons_append, List.chain'_append]
          refine ⟨hch, List.chain'_singleton _, ?_⟩
          intro x hx y hy
          have hxl := hall x (List.mem_of_mem_getLast? hx)
          simp only [List.head?_cons, Option.mem_def, Option.some.injEq] at hy
          omega
      · simp only [h1, h2, if_true, if_false, and_false, Prod.mk.injEq] at hclk hsend
        obtain ⟨c1, c2, c3⟩ := hclk
        have hm1 : env.clock s.nclk ≤ env.clock (s.nclk + 1) := hmono (Nat.le_succ _)
        rw [c1, c2, c3, htr, List.filter_append, List.length_append, hsend, hlen]
        exact ⟨le_trans hle hm1, hall, hch, by simp⟩
    · rw [if_neg h1] at hclk
      rw [if_neg (fun h => h1 h.1)] at hsend
      simp only [Prod.mk.injEq] at hclk
      obtain ⟨c1, c2, c3⟩ := hclk
      rw [c1, c2, c3, htr, List.filter_append, List.length_append, hsend, hlen]
      exact ⟨hle, hall, hch, by simp⟩
  · rintro s h
    exact h

/-- Claim C2. With a non-decreasing clock of 64-bit microsecond readings, in every run of
`mainloop`: the initial reading followed by the timestamps recorded at the dispatches form a
sequence whose consecutive entries differ by more than 40000, one timestamp being recorded per
`set_rpyt` call; an iteration makes at most one `set_rpyt` call, and makes it only when the
reading taken minus the last recorded timestamp exceeds 40000, the timestamp it then records
being no earlier than that reading; with an elapsed time of 40000 or less (40000 included) no
call is made and no timestamp is recorded. -/
theorem mainloop_rate_limit (ids : AxisIds) (uart_fd : Int) (env : Env) (edge : ButtonEdgeState)
    (hmono : Monotone env.clock) (hb : ∀ k, env.clock k < 2 ^ 64) (fuel : Nat) :
    ∀ s, s = mainloop ids uart_fd env edge [] fuel →
      List.Chain' (fun a b => a + 40000 < b) (env.clock 0 :: s.stamps) ∧
      (s.trace.filter LinkCall.isSetRpyt).length = s.stamps.length ∧
      s.last_time_stamp ≤ env.clock s.nclk ∧
      ((new_calls s (loop_body ids uart_fd env s)).filter LinkCall.isSetRpyt).length ≤ 1 ∧
      ((∃ c ∈ new_calls s (loop_body ids uart_fd env s), c.isSetRpyt = true) →
        40000 < env.clock s.nclk - s.last_time_stamp ∧
        env.clock s.nclk ≤ (loop_body ids uart_fd env s).last_time_stamp ∧
        (loop_body ids uart_fd env s).stamps =
          s.stamps ++ [(loop_body ids uart_fd env s).last_time_stamp]) ∧
      (env.clock s.nclk - s.last_time_stamp ≤ 40000 →
        (∀ c ∈ new_calls s (loop_body ids uart_fd env s), c.isSetRpyt = false) ∧
        (loop_body ids uart_fd env s).stamps = s.stamps ∧
        (loop_body ids uart_fd env s).last_time_stamp = s.last_time_stamp) := by
  intro s hs
  have hinv := run_loop_rate_invariant ids uart_fd env hmono hb (env.clock 0) fuel
    (drained_state env edge [])
    ⟨by
      show microsSinceEpoch env 0 ≤ env.clock 1
      rw [microsSinceEpoch_eq env hb]
      exact hmono (Nat.zero_le 1),
     by
      intro x hx
      show x ≤ microsSinceEpoch env 0
      rw [microsSinceEpoch_eq env hb]
      have hx2 : x ∈ [env.clock 0] := hx
      exact le_of_eq (List.mem_singleton.mp hx2),
     List.chain'_singleton _, rfl⟩
  have hs2 : run_loop ids uart_fd env fuel (drained_state env edge []) = s := hs.symm
  rw [hs2] at hinv
  obtain ⟨hle, hall, hch, hlen⟩ := hinv
  have hclk := loop_body_clock ids uart_fd env s
  have hsend := new_calls_sends ids uart_fd env s
  rw [microsSinceEpoch_eq env hb, microsSinceEpoch_eq env hb, sub64_of_le hle (hb _)] at hclk
  rw [microsSinceEpoch_eq env hb, sub64_of_le hle (hb _)] at hsend
  have hmem : ∀ c, c ∈ new_calls s (loop_body ids uart_fd env s) → c.isSetRpyt = true →
      c ∈ (new_calls s (loop_body ids uart_fd env s)).filter LinkCall.isSetRpyt :=
    fun c h1 h2 => List.mem_filter.mpr ⟨h1, h2⟩
  refine ⟨hch, hlen, hle, ?_, ?_, ?_⟩
  · rw [hsend]
    split_ifs <;> simp
  · rintro ⟨c, hc, hcs⟩
    have hc2 := hmem c hc hcs
    rw [hsend] at hc2
    split_ifs at hc2 with hcond
    · obtain ⟨h1, h2⟩ := hcond
      simp only [h1, h2, if_true, Prod.mk.injEq] at hclk
      obtain ⟨c1, c2, c3⟩ := hclk
      refine ⟨h2, ?_, ?_⟩
      · rw [c1]; exact hmono (Nat.le_succ _)
      · rw [c3, c1]
    · simp at hc2
  · intro hsmall
    have hn : ¬ 40000 < env.clock s.nclk - s.last_time_stamp := not_lt.mpr hsmall
    rw [if_neg hn] at hclk
    rw [if_neg (fun h => hn h.2)] at hsend
    have hst : (loop_body ids uart_fd env s).stamps = s.stamps ∧
        (loop_body ids uart_fd env s).last_time_stamp = s.last_time_stamp := by
      split_ifs at hclk
      · simp only [Prod.mk.injEq] at hclk
        exact ⟨hclk.2.2, hclk.1⟩
      · simp only [Prod.mk.injEq] at hclk
        exact ⟨hclk.2.2, hclk.1⟩
    refine ⟨?_, hst.1, hst.2⟩
    intro c hc
    by_contra hcs
    have hcs2 : c.isSetRpyt = true := by
      cases h : c.isSetRpyt
      · exact absurd h hcs
      · rfl
    have hc2 := hmem c hc hcs2
    rw [hsend] at hc2
    simp at hc2

/-! ## The inert mode flag -/

theorem read_step_axes5 (ids : AxisIds) (hd : ids.distinct) (env1 env2 : Env)
    (s1 s2 : LoopState) (hf : rb_variant ids (env1.fresh s1.iter) (env2.fresh s2.iter))
    (h : (s1.y, s1.r, s1.p, s1.t, s1.lb) = (s2.y, s2.r, s2.p, s2.t, s2.lb)) :
    ((read_step ids env1 s1).y, (read_step ids env1 s1).r, (read_step ids env1 s1).p,
        (read_step ids env1 s1).t, (read_step ids env1 s1).lb) =
      ((read_step ids env2 s2).y, (read_step ids env2 s2).r, (read_step ids env2 s2).p,
        (read_step ids env2 s2).t, (read_step ids env2 s2).lb) := by
  obtain ⟨⟨h12, h13, h14, h15, h16⟩, ⟨h23, h24, h25, h26⟩, ⟨h34, h35, h36⟩, ⟨h45, h46⟩, h56⟩ :=
    distinct_unfold ids hd
  have a1 := read_step_axes ids env1 s1
  have a2 := read_step_axes ids env2 s2
  simp only [Prod.mk.injEq] at h
  obtain ⟨e1, e2, e3, e4, e5⟩ := h
  rcases hf with hf | ⟨ev1, ev2, hf1, hf2, ⟨hty, hnum⟩, -, hty2, hnum2⟩
  · rw [← hf] at a2
    cases hfr : env1.fresh s1.iter with
    | none =>
      rw [hfr] at a1 a2
      simp only [axes, Prod.mk.injEq] at a1 a2
      simp only [a1, a2, e1, e2, e3, e4, e5]
    | some e =>
      rw [hfr] at a1 a2
      simp only [axes] at a1 a2
      split_ifs at a1 a2 <;> simp only [Prod.mk.injEq] at a1 a2 <;>
        simp only [a1, a2, e1, e2, e3, e4, e5]
  · rw [hf1] at a1
    rw [hf2] at a2
    simp only [axes, hty, hty2, hnum, hnum2, if_true, if_neg (Ne.symm h16), if_neg (Ne.symm h26),
      if_neg (Ne.symm h36), if_neg (Ne.symm h46), if_neg (Ne.symm h56), Prod.mk.injEq]
      at a1 a2
    simp only [a1, a2, e1, e2, e3, e4, e5]

/-- One iteration keeps two states in agreement on everything a link call can depend on, when
the two reads agree up to the value of a right-button event. -/
theorem loop_body_link_view (ids : AxisIds) (hd : ids.distinct) (u1 u2 : Int) (env1 env2 : Env)
    (hclock : env1.clock = env2.clock) (hmid : env1.runMid = env2.runMid)
    (s1 s2 : LoopState) (hf : rb_variant ids (env1.fresh s1.iter) (env2.fresh s2.iter))
    (h : link_view s1 = link_view s2) :
    link_view (loop_body ids u1 env1 s1) = link_view (loop_body ids u2 env2 s2) := by
  simp only [link_view, Prod.mk.injEq] at h
  obtain ⟨⟨e1, e2, e3, e4, e5⟩, e6, ⟨e7, e8, e9⟩, e10, e11, e12⟩ := h
  have h5 := read_step_axes5 ids hd env1 env2 s1 s2 hf (by simp only [e1, e2, e3, e4, e5])
  have hx1 := loop_body_axes ids u1 env1 s1
  have hx2 := loop_body_axes ids u2 env2 s2
  simp only [axes, Prod.mk.injEq] at hx1 hx2 h5
  obtain ⟨f1, f2, f3, f4, f5⟩ := h5
  have hmu : ∀ k, microsSinceEpoch env1 k = microsSinceEpoch env2 k := by
    intro k; unfold microsSinceEpoch; rw [hclock]
  have hc1 := loop_body_clock ids u1 env1 s1
  have hc2 := loop_body_clock ids u2 env2 s2
  rw [hmu, hmu, hmid, e7, e8, e9, e10] at hc1
  have ht1 := loop_body_trace ids u1 env1 s1
  have ht2 := loop_body_trace ids u2 env2 s2
  obtain ⟨a1, a2, a3, a4, a5, a6, a7, a8⟩ := read_step_frame ids env1 s1
  obtain ⟨b1, b2, b3, b4, b5, b6, b7, b8⟩ := read_step_frame ids env2 s2
  have hdet : (detector_report ids env1 s1 &&& BUTTON1_PRESSED ≠ 0) ↔
      (detector_report ids env2 s2 &&& BUTTON1_PRESSED ≠ 0) := by
    unfold detector_report
    rw [parse_buttons_pressed1, parse_buttons_pressed1, a3, b3, f5, e6]
  rw [hmu, hmid, e7, e8, e10, e12, f1, f2, f3, f4] at ht1
  simp only [hdet] at ht1
  have hed1 := loop_body_edge ids u1 env1 s1
  have hed2 := loop_body_edge ids u2 env2 s2
  simp only [link_view, Prod.mk.injEq]
  refine ⟨⟨?_, ?_, ?_, ?_, ?_⟩, ?_, ?_, ?_, ?_, ?_⟩
  · rw [hx1.1, hx2.1, f1]
  · rw [hx1.2.1, hx2.2.1, f2]
  · rw [hx1.2.2.1, hx2.2.2.1, f3]
  · rw [hx1.2.2.2.1, hx2.2.2.2.1, f4]
  · rw [hx1.2.2.2.2.1, hx2.2.2.2.2.1, f5]
  · rw [hed1, hed2, hx1.2.2.2.2.1, hx2.2.2.2.2.1, f5]
  · have := hc1.trans hc2.symm
    simpa only [Prod.mk.injEq] using this
  · rw [loop_body_iter, loop_body_iter, e10]
  · rw [loop_body_exited, loop_body_exited, e11]
  · rw [ht1, ht2]

theorem run_loop_link_view (ids : AxisIds) (hd : ids.distinct) (u1 u2 : Int) (env1 env2 : Env)
    (hclock : env1.clock = env2.clock) (htop : env1.runTop = env2.runTop)
    (hmid : env1.runMid = env2.runMid)
    (hfresh : ∀ k, rb_variant ids (env1.fresh k) (env2.fresh k)) :
    ∀ (fuel : Nat) (s1 s2 : LoopState), link_view s1 = link_view s2 →
      link_view (run_loop ids u1 env1 fuel s1) = link_view (run_loop ids u2 env2 fuel s2) := by
  intro fuel
  induction fuel with
  | zero => intro s1 s2 h; exact h
  | succ n ih =>
    intro s1 s2 h
    have hi : s1.iter = s2.iter := by
      have := congrArg (fun v => v.2.2.2.1) h
      exact this
    unfold run_loop
    rw [htop]
    by_cases hr : env2.runTop s1.iter = true
    · have hr2 : env2.runTop s2.iter = true := hi ▸ hr
      rw [if_pos hr, if_pos hr2]
      apply ih
      apply loop_body_link_view ids hd u1 u2 env1 env2 hclock hmid s1 s2 _ h
      rw [← hi]
      exact hfresh s1.iter
    · have hr2 : ¬ env2.runTop s2.iter = true := hi ▸ hr
      rw [if_neg hr, if_neg hr2]
      simp only [link_view, Prod.mk.injEq] at h ⊢
      obtain ⟨h1, h2, h3, h4, h5, h6⟩ := h
      exact ⟨h1, h2, h3, h4, trivial, h6⟩

/-- Claim C9. The mode flag `read_uart_commands` and the descriptor `uart_fd` have no effect on
the link: two runs of `mainloop` with the same clock readings, the same observations of the
shutdown flag and the same read outcomes, except that right-button axis events may carry
different values, make the same sequence of link calls with the same arguments and stop at the
same point, whatever the two values of `uart_fd` (so also for the `-1` of `open_uart`) and
whatever events were pending at the start. -/
theorem uart_mode_inert (ids : AxisIds) (hd : ids.distinct) (u1 u2 : Int) (env1 env2 : Env)
    (hclock : env1.clock = env2.clock) (htop : env1.runTop = env2.runTop)
    (hmid : env1.runMid = env2.runMid)
    (hfresh : ∀ k, rb_variant ids (env1.fresh k) (env2.fresh k)) (fuel : Nat) :
    (mainloop ids u1 env1 ButtonEdgeState.init [] fuel).trace =
        (mainloop ids u2 env2 ButtonEdgeState.init [] fuel).trace ∧
      (mainloop ids u1 env1 ButtonEdgeState.init [] fuel).exited =
        (mainloop ids u2 env2 ButtonEdgeState.init [] fuel).exited ∧
      (mainloop ids u1 env1 ButtonEdgeState.init [] fuel).iter =
        (mainloop ids u2 env2 ButtonEdgeState.init [] fuel).iter ∧
      (mainloop ids (open_uart u1) env1 ButtonEdgeState.init [] fuel).trace =
        (mainloop ids u2 env2 ButtonEdgeState.init [] fuel).trace := by
  have h0 : link_view (drained_state env1 ButtonEdgeState.init []) =
      link_view (drained_state env2 ButtonEdgeState.init []) := by
    simp only [link_view, drained_state, init_state, microsSinceEpoch, hclock]
  have h := run_loop_link_view ids hd u1 u2 env1 env2 hclock htop hmid hfresh fuel _ _ h0
  have h2 := run_loop_link_view ids hd (open_uart u1) u2 env1 env2 hclock htop hmid hfresh fuel
    _ _ h0
  simp only [link_view, Prod.mk.injEq] at h h2
  exact ⟨h.2.2.2.2.2, h.2.2.2.2.1, h.2.2.2.1, h2.2.2.2.2.2⟩

/-! ## The scenario: roll, throttle, arm -/

theorem armed_foldl_sends (l : List LinkCall) (hl : ∀ c ∈ l, c.isSetRpyt = true) :
    ∀ b : Bool, l.foldl armed_step b = b := by
  induction l with
  | nil => intro b; rfl
  | cons c rest ih =>
    intro b
    have hc := hl c (List.mem_cons_self _ _)
    have hrest : ∀ x ∈ rest, x.isSetRpyt = true := fun x hx => hl x (List.mem_cons_of_mem _ hx)
    rw [List.foldl_cons, ih hrest]
    cases c <;> first | rfl | exact Bool.noConfusion hc

/-- A trace made of `set_rpyt` calls, one `toggle_armed`, and then only calls `X`: every
`set_rpyt` call that comes after the toggle is `X`, and the link is armed when it is made. -/
theorem split_after_toggle (X : LinkCall) (hX : X.isSetRpyt = true) (pre post a b : List LinkCall)
    (c : LinkCall) (hpre : ∀ x ∈ pre, x.isSetRpyt = true) (hpost : ∀ x ∈ post, x = X)
    (h : pre ++ LinkCall.toggle_armed :: post = a ++ c :: b) (hc : c.isSetRpyt = true)
    (ha : LinkCall.toggle_armed ∈ a) : c = X ∧ armed_after a = true := by
  rcases List.append_eq_append_iff.mp h with ⟨a1, h1, h2⟩ | ⟨c1, h1, h2⟩
  · cases a1 with
    | nil =>
      simp only [List.nil_append, List.cons.injEq] at h2
      rw [← h2.1] at hc
      exact Bool.noConfusion hc
    | cons x a2 =>
      simp only [List.cons_append, List.cons.injEq] at h2
      obtain ⟨hx, hp⟩ := h2
      subst hx
      have hcm : c ∈ post := by rw [hp]; simp
      refine ⟨hpost c hcm, ?_⟩
      have ha2 : ∀ y ∈ a2, y.isSetRpyt = true := by
        intro y hy
        have : y ∈ post := by rw [hp]; simp [hy]
        rw [hpost y this]; exact hX
      rw [h1]
      unfold armed_after
      rw [List.foldl_append, armed_foldl_sends pre hpre, List.foldl_cons,
        armed_foldl_sends a2 ha2]
      rfl
  · have hm : LinkCall.toggle_armed ∈ pre := by rw [h1]; simp [ha]
    exact Bool.noConfusion (hpre _ hm)

theorem scenario_values_inInt16 (env : Env) (i1 i2 i3 : Nat) (e1 e2 e3 : JsEvent)
    (hf1 : env.fresh i1 = some e1) (hf2 : env.fresh i2 = some e2) (hf3 : env.fresh i3 = some e3)
    (hnone : ∀ k, k ≠ i1 → k ≠ i2 → k ≠ i3 → env.fresh k = none)
    (he1 : e1.value = 100) (he2 : e2.value = 500) (he3 : e3.value = 0) :
    ∀ k e, env.fresh k = some e → inInt16 e.value := by
  intro k e hk
  by_cases k1 : k = i1
  · rw [k1, hf1] at hk; rw [← Option.some.inj hk, he1]; decide
  · by_cases k2 : k = i2
    · rw [k2, hf2] at hk; rw [← Option.some.inj hk, he2]; decide
    · by_cases k3 : k = i3
      · rw [k3, hf3] at hk; rw [← Option.some.inj hk, he3]; decide
      · rw [hnone k k1 k2 k3] at hk; exact Option.noConfusion hk

/-- The invariant behind claim C6. -/
theorem run_loop_scenario (ids : AxisIds) (hd : ids.distinct) (uart_fd : Int) (env : Env)
    (i1 i2 i3 : Nat) (e1 e2 e3 : JsEvent) (h12 : i1 < i2) (h23 : i2 < i3)
    (hf1 : env.fresh i1 = some e1) (hf2 : env.fresh i2 = some e2) (hf3 : env.fresh i3 = some e3)
    (hnone : ∀ k, k ≠ i1 → k ≠ i2 → k ≠ i3 → env.fresh k = none)
    (he1 : clear_init e1.type = JS_EVENT_AXIS ∧ e1.number = ids.ROLL ∧ e1.value = 100)
    (he2 : clear_init e2.type = JS_EVENT_AXIS ∧ e2.number = ids.THROTTLE ∧ e2.value = 500)
    (he3 : clear_init e3.type = JS_EVENT_AXIS ∧ e3.number = ids.LEFTBUT ∧ e3.value = 0)
    (fuel : Nat) (s0 : LoopState)
    (h0 : s0.edge = ⟨s0.lb, s0.rb⟩ ∧
      axes s0 = (0, if i1 < s0.iter then 100 else 0, 0,
        if i2 < s0.iter then 500 else INT16_MIN, if i3 < s0.iter then 0 else INT16_MIN,
        INT16_MIN) ∧
      (s0.iter ≤ i3 → ∀ c ∈ s0.trace, c.isSetRpyt = true) ∧
      (i3 < s0.iter → ∃ pre post, s0.trace = pre ++ LinkCall.toggle_armed :: post ∧
        (∀ c ∈ pre, c.isSetRpyt = true) ∧ (∀ c ∈ post, c = LinkCall.set_rpyt 100 0 0 500))) :
    (run_loop ids uart_fd env fuel s0).edge =
        ⟨(run_loop ids uart_fd env fuel s0).lb, (run_loop ids uart_fd env fuel s0).rb⟩ ∧
      axes (run_loop ids uart_fd env fuel s0) =
        (0, if i1 < (run_loop ids uart_fd env fuel s0).iter then 100 else 0, 0,
          if i2 < (run_loop ids uart_fd env fuel s0).iter then 500 else INT16_MIN,
          if i3 < (run_loop ids uart_fd env fuel s0).iter then 0 else INT16_MIN, INT16_MIN) ∧
      ((run_loop ids uart_fd env fuel s0).iter ≤ i3 →
        ∀ c ∈ (run_loop ids uart_fd env fuel s0).trace, c.isSetRpyt = true) ∧
      (i3 < (run_loop ids uart_fd env fuel s0).iter →
        ∃ pre post, (run_loop ids uart_fd env fuel s0).trace =
            pre ++ LinkCall.toggle_armed :: post ∧
          (∀ c ∈ pre, c.isSetRpyt = true) ∧
          (∀ c ∈ post, c = LinkCall.set_rpyt 100 0 0 500)) := by
  obtain ⟨⟨d12, d13, d14, d15, d16⟩, ⟨d23, d24, d25, d26⟩, ⟨d34, d35, d36⟩, ⟨d45, d46⟩, d56⟩ :=
    distinct_unfold ids hd
  have hv := scenario_values_inInt16 env i1 i2 i3 e1 e2 e3 hf1 hf2 hf3 hnone he1.2.2 he2.2.2
    he3.2.2
  refine run_loop_invariant ids uart_fd env
    (fun s => s.edge = ⟨s.lb, s.rb⟩ ∧
      axes s = (0, if i1 < s.iter then 100 else 0, 0,
        if i2 < s.iter then 500 else INT16_MIN, if i3 < s.iter then 0 else INT16_MIN,
        INT16_MIN) ∧
      (s.iter ≤ i3 → ∀ c ∈ s.trace, c.isSetRpyt = true) ∧
      (i3 < s.iter → ∃ pre post, s.trace = pre ++ LinkCall.toggle_armed :: post ∧
        (∀ c ∈ pre, c.isSetRpyt = true) ∧ (∀ c ∈ post, c = LinkCall.set_rpyt 100 0 0 500)))
    ?_ ?_ fuel s0 h0
  · rintro s ⟨hedge, hax, hbefore, hafter⟩ -
    have hax0 := hax
    simp only [axes, Prod.mk.injEq] at hax
    obtain ⟨ay, ar, ap, at1, alb, arb⟩ := hax
    have hl : inInt16 s.lb := by rw [alb]; split_ifs <;> decide
    have hr : inInt16 s.rb := by rw [arb]; decide
    have w100 : wrap16 100 = 100 := by decide
    have w500 : wrap16 500 = 500 := by decide
    have w0 : wrap16 0 = 0 := by decide
    have hpress := detector_report_pressed1 ids hd env hv s hedge hl hr
    have hm := read_step_axes ids env s
    have hnew : axes (read_step ids env s) =
        (0, if i1 < s.iter + 1 then 100 else 0, 0,
          if i2 < s.iter + 1 then 500 else INT16_MIN,
          if i3 < s.iter + 1 then 0 else INT16_MIN, INT16_MIN) := by
      rw [hm]
      by_cases k1 : s.iter = i1
      · rw [k1] at ar at1 alb ⊢
        rw [hf1]
        simp only [he1.1, he1.2.1, he1.2.2, if_true, if_neg (Ne.symm d12), w100, ay, ar, ap,
          at1, alb, arb]
        split_ifs <;> first | rfl | omega
      · by_cases k2 : s.iter = i2
        · rw [k2] at ar at1 alb ⊢
          rw [hf2]
          simp only [he2.1, he2.2.1, he2.2.2, if_true, if_neg (Ne.symm d14),
            if_neg (Ne.symm d24), if_neg (Ne.symm d34), w500, ay, ar, ap, at1, alb, arb]
          split_ifs <;> first | rfl | omega
        · by_cases k3 : s.iter = i3
          · rw [k3] at ar at1 alb ⊢
            rw [hf3]
            simp only [he3.1, he3.2.1, he3.2.2, if_true, if_neg (Ne.symm d15),
              if_neg (Ne.symm d25), if_neg (Ne.symm d35), if_neg (Ne.symm d45), w0, ay, ar, ap,
              at1, alb, arb]
            split_ifs <;> first | rfl | omega
          · rw [hnone s.iter k1 k2 k3]
            simp only [axes, ay, ar, ap, at1, alb, arb]
            split_ifs <;> first | rfl | omega
    have hpress3 : detector_report ids env s &&& BUTTON1_PRESSED ≠ 0 ↔ s.iter = i3 := by
      rw [hpress]
      constructor
      · rintro ⟨e, hfe, ⟨-, hnum⟩, -⟩
        by_contra k3
        by_cases k1 : s.iter = i1
        · rw [k1, hf1] at hfe
          rw [← Option.some.inj hfe, he1.2.1] at hnum
          exact d25 hnum
        · by_cases k2 : s.iter = i2
          · rw [k2, hf2] at hfe
            rw [← Option.some.inj hfe, he2.2.1] at hnum
            exact d45 hnum
          · rw [hnone s.iter k1 k2 k3] at hfe
            exact Option.noConfusion hfe
      · intro k3
        refine ⟨e3, by rw [k3]; exact hf3, ⟨he3.1, he3.2.1⟩, ?_⟩
        rw [alb, he3.2.2, if_neg (by omega)]
        decide
    have htr := loop_body_trace ids uart_fd env s
    have hax2 := hnew
    simp only [axes, Prod.mk.injEq] at hax2
    obtain ⟨my, mr, mp, mt, -, -⟩ := hax2
    have hsnd : ∀ c ∈ (if env.runMid s.iter = true ∧
          40000 < sub64 (microsSinceEpoch env s.nclk) s.last_time_stamp
        then [LinkCall.set_rpyt (read_step ids env s).r (read_step ids env s).p
          (read_step ids env s).y (read_step ids env s).t]
        else []), c.isSetRpyt = true ∧ (i3 ≤ s.iter → c = LinkCall.set_rpyt 100 0 0 500) := by
      intro c hc
      split_ifs at hc
      · rw [List.mem_singleton.mp hc]
        refine ⟨rfl, ?_⟩
        intro hge
        rw [my, mr, mp, mt, if_pos (by omega), if_pos (by omega)]
      · exact absurd hc (List.not_mem_nil c)
    refine ⟨loop_body_edge ids uart_fd env s, ?_, ?_, ?_⟩
    · rw [loop_body_axes, loop_body_iter]
      exact hnew
    · intro hle
      rw [loop_body_iter] at hle
      have hnp : ¬ (detector_report ids env s &&& BUTTON1_PRESSED ≠ 0) := by
        rw [hpress3]; omega
      rw [htr, if_neg hnp, List.nil_append]
      intro c hc
      rcases List.mem_append.mp hc with hc | hc
      · exact hbefore (by omega) c hc
      · exact (hsnd c hc).1
    · intro hgt
      rw [loop_body_iter] at hgt
      by_cases k3 : s.iter = i3
      · have hp : detector_report ids env s &&& BUTTON1_PRESSED ≠ 0 := hpress3.mpr k3
        rw [htr, if_pos hp]
        exact ⟨s.trace, _, rfl, hbefore (by omega),
          fun c hc => (hsnd c hc).2 (by omega)⟩
      · have hnp : ¬ (detector_report ids env s &&& BUTTON1_PRESSED ≠ 0) := by
          rw [hpress3]; exact k3
        obtain ⟨pre, post, hsplit, hpre, hpost⟩ := hafter (by omega)
        rw [htr, if_neg hnp, List.nil_append, hsplit]
        refine ⟨pre, post ++ _, by rw [List.append_assoc]; rfl, hpre, ?_⟩
        intro c hc
        rcases List.mem_append.mp hc with hc | hc
        · exact hpost c hc
        · exact (hsnd c hc).2 (by omega)
  · rintro s h
    exact h

/-- Claim C6. From the Init state of `mainloop` (fresh statics, whatever was pending drained),
let the Running iterations read exactly three events, in this order: the axis events
(ROLL, 100), (THROTTLE, 500) and (LEFTBUT, 0). Then `toggle_armed` is called exactly once in
the whole run, in the iteration that reads the left-button event; and every `set_rpyt` call made
after that toggle, so in particular the first dispatch at or after that iteration, has
roll 100, pitch 0, yaw 0, throttle 500, and the link (disarmed at the start, flipped by each
`toggle_armed`) is armed when it is made. -/
theorem scenario_roll_throttle_arm (ids : AxisIds) (hd : ids.distinct) (uart_fd : Int)
    (env : Env) (i1 i2 i3 : Nat) (e1 e2 e3 : JsEvent) (h12 : i1 < i2) (h23 : i2 < i3)
    (hf1 : env.fresh i1 = some e1) (hf2 : env.fresh i2 = some e2) (hf3 : env.fresh i3 = some e3)
    (hnone : ∀ k, k ≠ i1 → k ≠ i2 → k ≠ i3 → env.fresh k = none)
    (he1 : clear_init e1.type = JS_EVENT_AXIS ∧ e1.number = ids.ROLL ∧ e1.value = 100)
    (he2 : clear_init e2.type = JS_EVENT_AXIS ∧ e2.number = ids.THROTTLE ∧ e2.value = 500)
    (he3 : clear_init e3.type = JS_EVENT_AXIS ∧ e3.number = ids.LEFTBUT ∧ e3.value = 0)
    (fuel : Nat) :
    ∀ s, s = mainloop ids uart_fd env ButtonEdgeState.init [] fuel →
      (s.iter ≤ i3 → LinkCall.toggle_armed ∉ s.trace) ∧
      (s.iter = i3 → LinkCall.toggle_armed ∈ new_calls s (loop_body ids uart_fd env s)) ∧
      (i3 < s.iter → s.trace.count LinkCall.toggle_armed = 1) ∧
      (∀ a c b, s.trace = a ++ c :: b → c.isSetRpyt = true → LinkCall.toggle_armed ∈ a →
        c = LinkCall.set_rpyt 100 0 0 500 ∧ armed_after a = true) := by
  intro s hs
  have hinv := run_loop_scenario ids hd uart_fd env i1 i2 i3 e1 e2 e3 h12 h23 hf1 hf2 hf3 hnone
    he1 he2 he3 fuel (drained_state env ButtonEdgeState.init [])
    ⟨rfl, rfl, fun _ c hc => absurd hc (List.not_mem_nil c),
      fun h => absurd h (Nat.not_lt_zero i3)⟩
  have hs2 : run_loop ids uart_fd env fuel (drained_state env ButtonEdgeState.init []) = s :=
    hs.symm
  rw [hs2] at hinv
  obtain ⟨hedge, hax, hbefore, hafter⟩ := hinv
  refine ⟨?_, ?_, ?_, ?_⟩
  · intro hle hmem
    exact Bool.noConfusion (hbefore hle _ hmem)
  · intro heq
    have hv := scenario_values_inInt16 env i1 i2 i3 e1 e2 e3 hf1 hf2 hf3 hnone he1.2.2 he2.2.2
      he3.2.2
    simp only [axes, Prod.mk.injEq] at hax
    obtain ⟨-, -, -, -, alb, arb⟩ := hax
    rw [if_neg (by omega)] at alb
    have hl : inInt16 s.lb := by rw [alb]; decide
    have hr : inInt16 s.rb := by rw [arb]; decide
    rw [toggle_mem_new_calls, detector_report_pressed1 ids hd env hv s hedge hl hr]
    refine ⟨e3, by rw [heq]; exact hf3, ⟨he3.1, he3.2.1⟩, ?_⟩
    rw [alb, he3.2.2]
    decide
  · intro hgt
    obtain ⟨pre, post, hsplit, hpre, hpost⟩ := hafter hgt
    have h1 : pre.count LinkCall.toggle_armed = 0 := by
      rw [List.count_eq_zero]
      intro hm
      exact Bool.noConfusion (hpre _ hm)
    have h2 : post.count LinkCall.toggle_armed = 0 := by
      rw [List.count_eq_zero]
      intro hm
      exact LinkCall.noConfusion (hpost _ hm)
    rw [hsplit, List.count_append, List.count_cons, h1, h2]
    rfl
  · intro a c b hsplit hc ha
    by_cases hgt : i3 < s.iter
    · obtain ⟨pre, post, hsplit2, hpre, hpost⟩ := hafter hgt
      exact split_after_toggle (LinkCall.set_rpyt 100 0 0 500) rfl pre post a b c hpre hpost
        (hsplit2.symm.trans hsplit) hc ha
    · have hall := hbefore (by omega)
      have : LinkCall.toggle_armed ∈ s.trace := by rw [hsplit]; simp [ha]
      exact Bool.noConfusion (hall _ this)

/-! ## Instances on the sample inputs -/

set_option maxRecDepth 100000

theorem demo_clock_monotone : Monotone demo_clock := by
  intro a b hab
  exact min_le_min (Nat.mul_le_mul_left _ hab) le_rfl

theorem demo_clock_bound (k : Nat) : demo_clock k < 2 ^ 64 :=
  lt_of_le_of_lt (min_le_right _ _) (by norm_num)

theorem demo_env_values (k : Nat) (e : JsEvent) (h : demo_env.fresh k = some e) :
    inInt16 e.value := by
  unfold demo_env at h
  simp only at h
  split_ifs at h
  · rw [← Option.some.inj h]; decide
  · rw [← Option.some.inj h]; decide
  · rw [← Option.some.inj h]; decide

theorem demo_env_no_more (k : Nat) (h0 : k ≠ 0) (h1 : k ≠ 1) (h2 : k ≠ 2) :
    demo_env.fresh k = none := by
  unfold demo_env
  simp only [if_neg h0, if_neg h1, if_neg h2]

/-- Instance of `main_disarm_before_disconnect`: the whole run of `main` on the sample
environment. -/
theorem main_disarm_before_disconnect_witness :
    main demo_ids 3 demo_env 6 =
        some [LinkCall.connect_mav, LinkCall.set_rpyt 100 0 0 500, LinkCall.toggle_armed,
          LinkCall.set_rpyt 100 0 0 500, LinkCall.disarm, LinkCall.disconnect_mav] ∧
      ∃ tr, main demo_ids 3 demo_env (5 + 1) = some tr :=
  ⟨by rfl, (main_disarm_before_disconnect demo_ids 3 demo_env 6).2 5 (by decide)⟩

/-- Instance of `mainloop_rate_limit`: on the sample clock, readings exactly 40 ms after the
last timestamp dispatch nothing, and the two dispatches are stamped 120 ms apart. -/
theorem mainloop_rate_limit_witness :
    (mainloop demo_ids (-1) demo_env ButtonEdgeState.init [] 6).stamps = [120000, 240000] ∧
      List.Chain' (fun a b => a + 40000 < b)
        (demo_env.clock 0 :: (mainloop demo_ids (-1) demo_env ButtonEdgeState.init [] 6).stamps) :=
  ⟨by rfl, (mainloop_rate_limit demo_ids (-1) demo_env ButtonEdgeState.init
    demo_clock_monotone demo_clock_bound 6 _ rfl).1⟩

/-- Instance of `loop_body_button_actions`: a state in which both buttons rise in the same
iteration; the toggle is sent and the mode flag is flipped. -/
theorem loop_body_button_actions_witness :
    (new_calls { drained_state demo_env ButtonEdgeState.init [] with lb := 5, rb := 5 }
        (loop_body demo_ids (-1) demo_env
          { drained_state demo_env ButtonEdgeState.init [] with lb := 5, rb := 5 })).count
        LinkCall.toggle_armed = 1 ∧
      (loop_body demo_ids (-1) demo_env
        { drained_state demo_env ButtonEdgeState.init [] with lb := 5, rb := 5 }).read_uart_commands
        = true :=
  ⟨(loop_body_button_actions demo_ids (-1) demo_env
      { drained_state demo_env ButtonEdgeState.init [] with lb := 5, rb := 5 }).2.1.trans
      (by rfl),
    (loop_body_button_actions demo_ids (-1) demo_env
      { drained_state demo_env ButtonEdgeState.init [] with lb := 5, rb := 5 }).2.2.1.trans
      (by rfl)⟩

/-- Instance of `scenario_roll_throttle_arm` on the sample environment, whose iterations 0, 1
and 2 read the three events: the run makes one toggle. -/
theorem scenario_roll_throttle_arm_witness :
    (mainloop demo_ids (-1) demo_env ButtonEdgeState.init [] 6).trace =
        [LinkCall.set_rpyt 100 0 0 500, LinkCall.toggle_armed, LinkCall.set_rpyt 100 0 0 500] ∧
      (mainloop demo_ids (-1) demo_env ButtonEdgeState.init [] 6).trace.count
        LinkCall.toggle_armed = 1 :=
  ⟨by rfl, (scenario_roll_throttle_arm demo_ids (by decide) (-1) demo_env 0 1 2
    ⟨1, 100, 0x02, 0⟩ ⟨2, 500, 0x02, 2⟩ ⟨3, 0, 0x02, 4⟩ (by decide) (by decide) rfl rfl rfl
    demo_env_no_more (by decide) (by decide) (by decide) 6 _ rfl).2.2.1 (by decide)⟩

/-- Instance of `drain_discards_pending`: the two stale events of the sample environment leave
the axis variables at their initial values. -/
theorem drain_discards_pending_witness :
    axes (drained_state demo_env ButtonEdgeState.init []) =
        (0, 0, 0, INT16_MIN, INT16_MIN, INT16_MIN) ∧
      (drained_state demo_env ButtonEdgeState.init []).js = ⟨0, 9, 0x81, 1⟩ :=
  ⟨(drain_discards_pending demo_ids (-1) demo_env ButtonEdgeState.init []).2.1, by rfl⟩

/-- Instance of `loop_body_axis_update`: iteration 0 of the sample environment reads (ROLL, 100)
and changes the roll variable only. -/
theorem loop_body_axis_update_witness :
    axes (loop_body demo_ids (-1) demo_env (drained_state demo_env ButtonEdgeState.init [])) =
      (0, 100, 0, INT16_MIN, INT16_MIN, INT16_MIN) :=
  ((loop_body_axis_update demo_ids (by decide) (-1) demo_env
    (drained_state demo_env ButtonEdgeState.init [])).1 ⟨1, 100, 0x02, 0⟩ rfl (by decide)
    (by decide)).2.1 rfl

theorem demo_env_rb_variant (k : Nat) :
    rb_variant demo_ids ((demo_env_rb 9).fresh k) ((demo_env_rb (-32768)).fresh k) := by
  by_cases h : k = 3
  · right
    refine ⟨⟨4, 9, 0x02, 5⟩, ⟨4, -32768, 0x02, 5⟩, ?_, ?_, by decide, rfl, rfl, rfl⟩
    · rw [h]; rfl
    · rw [h]; rfl
  · left
    unfold demo_env_rb
    simp only [if_neg h]

/-- Instance of `uart_mode_inert`: the right button goes to 9 in one run and stays at -32768 in
the other, with the descriptors -1 and 7; the link calls are the same while the mode flag
differs. -/
theorem uart_mode_inert_witness :
    (mainloop demo_ids (-1) (demo_env_rb 9) ButtonEdgeState.init [] 6).trace =
        (mainloop demo_ids 7 (demo_env_rb (-32768)) ButtonEdgeState.init [] 6).trace ∧
      (mainloop demo_ids (-1) (demo_env_rb 9) ButtonEdgeState.init [] 6).read_uart_commands
          = true ∧
      (mainloop demo_ids 7 (demo_env_rb (-32768)) ButtonEdgeState.init [] 6).read_uart_commands
          = false :=
  ⟨(uart_mode_inert demo_ids (by decide) (-1) 7 (demo_env_rb 9) (demo_env_rb (-32768)) rfl rfl rfl
    demo_env_rb_variant 6).1, by rfl, by rfl⟩

/-- Instance of `mainloop_edge_invariant`: after three iterations of the sample run the statics
hold the button values, and the toggle has been sent for the left-button event 0 > `INT16_MIN`. -/
theorem mainloop_edge_invariant_witness :
    (mainloop demo_ids (-1) demo_env ButtonEdgeState.init [LinkCall.connect_mav] 3).edge =
        ⟨0, INT16_MIN⟩ ∧
      (mainloop demo_ids (-1) demo_env ButtonEdgeState.init [LinkCall.connect_mav] 3).edge =
        ⟨(mainloop demo_ids (-1) demo_env ButtonEdgeState.init [LinkCall.connect_mav] 3).lb,
          (mainloop demo_ids (-1) demo_env ButtonEdgeState.init [LinkCall.connect_mav] 3).rb⟩ :=
  ⟨by rfl, (mainloop_edge_invariant demo_ids (by decide) (-1) demo_env demo_env_values 3 _
    rfl).2.1⟩

end Px4RemoteCtrl
